import Mathlib

/-!
# Wizard Zone — verification of the server simulation core

Shallow embedding of the authoritative game-server simulation of the
`wizard-zone` repository: player/projectile state, combat application,
health regeneration, the game-phase transitions, the area-blast and
hitscan-ray abilities, projectile lifetime bookkeeping, arena-collision
resolution and player-pair separation.

Numeric conventions: JavaScript numbers are modelled as exact rationals
(`ℚ`) wherever the translated code uses only field arithmetic and
comparisons, and as real numbers (`ℝ`) for the routines that call
`Math.sqrt` / trigonometry (`ArcaneRaySystem`, `PhysicsSystem.applyDash`,
`ArenaCollisionSystem`, `CollisionSystem.resolvePlayerPairCollision`).
Ticks are integers.  JavaScript `Map`s are modelled as association lists
in insertion order (keys are unique in a `Map`; `get` is the first
lookup, `set`/in-place mutation of the retrieved entry is replacement of
the bindings with that key).
-/

/-- `Vec3` from `packages/shared/src/types/vectors.ts`, over a numeric carrier. -/
structure Vec3 (α : Type) where
  x : α
  y : α
  z : α
deriving DecidableEq

/-- `AbilityCooldown` from `packages/shared/src/types/player.ts`:
ready flag, remaining cooldown in milliseconds (UI facing), tick of last use. -/
structure AbilityCooldown where
  ready : Bool
  cooldownRemaining : ℚ
  lastUsed : ℤ
deriving DecidableEq

/-- `AbilityState` from `packages/shared/src/types/player.ts` (current
generation, with the five abilities). -/
structure AbilityState where
  dash : AbilityCooldown
  launchJump : AbilityCooldown
  primaryFire : AbilityCooldown
  novaBlast : AbilityCooldown
  arcaneRay : AbilityCooldown
deriving DecidableEq

/-- `PlayerState` from `packages/shared/src/types/player.ts`.  The
`lastDamageTick` field is read by `HealthRegenSystem` and documented in the
project docs; the copy of `player.ts` under `src/` predates it, so the field
is included as the docs/spec describe it ("last-damage tick", fed by combat). -/
structure PlayerState (α : Type) where
  id : String
  name : String
  position : Vec3 α
  velocity : Vec3 α
  yaw : α
  pitch : α
  health : ℚ
  maxHealth : ℚ
  isAlive : Bool
  isGrounded : Bool
  abilities : AbilityState
  lastProcessedInput : ℤ
  lastDamageTick : ℤ
deriving DecidableEq

/-- Sentinel from `player.ts`: "Use a large negative number to ensure
abilities are always ready on spawn". -/
def NEVER_USED : ℤ := -100000

/-- `createDefaultAbilityState` from `player.ts`. -/
def createDefaultAbilityState : AbilityState :=
  { dash := ⟨true, 0, NEVER_USED⟩
    launchJump := ⟨true, 0, NEVER_USED⟩
    primaryFire := ⟨true, 0, NEVER_USED⟩
    novaBlast := ⟨true, 0, NEVER_USED⟩
    arcaneRay := ⟨true, 0, NEVER_USED⟩ }

/-- `createDefaultPlayerState` from `player.ts` (at the rational carrier).
`lastDamageTick` starts at 0 ("never damaged" in the regen tests). -/
def createDefaultPlayerState (id name : String) : PlayerState ℚ :=
  { id := id
    name := name
    position := ⟨0, 1, 0⟩
    velocity := ⟨0, 0, 0⟩
    yaw := 0
    pitch := 0
    health := 100
    maxHealth := 100
    isAlive := true
    isGrounded := true
    abilities := createDefaultAbilityState
    lastProcessedInput := 0
    lastDamageTick := 0 }

/-- A JavaScript `Map<PlayerId, PlayerState>` in insertion order. -/
abbrev Players (α : Type) := List (String × PlayerState α)

/-- `Map.get`: first binding with the given key. -/
def getPlayer {α : Type} : Players α → String → Option (PlayerState α)
  | [], _ => none
  | (k, v) :: rest, i => if k = i then some v else getPlayer rest i

/-- In-place mutation of the entry retrieved by `get`: replace the bindings
carrying that key (a `Map` has at most one). -/
def setPlayer {α : Type} (players : Players α) (i : String) (v : PlayerState α) :
    Players α :=
  players.map (fun e => if e.1 = i then (e.1, v) else e)

theorem getPlayer_mem {α : Type} {s : Players α} {i : String} {v : PlayerState α}
    (h : getPlayer s i = some v) : (i, v) ∈ s := by
  induction s with
  | nil => simp [getPlayer] at h
  | cons e rest ih =>
    obtain ⟨k, w⟩ := e
    rw [getPlayer] at h
    by_cases hk : k = i
    · subst hk
      rw [if_pos rfl] at h
      cases Option.some_inj.mp h
      exact List.mem_cons_self _ _
    · rw [if_neg hk] at h
      exact List.mem_cons_of_mem _ (ih h)

theorem getPlayer_setPlayer_self {α : Type} (s : Players α) (i : String)
    (v : PlayerState α) (hv : (getPlayer s i).isSome) :
    getPlayer (setPlayer s i v) i = some v := by
  induction s with
  | nil => simp [getPlayer] at hv
  | cons e rest ih =>
    obtain ⟨k, w⟩ := e
    by_cases hk : k = i
    · subst hk
      have hs : setPlayer ((k, w) :: rest) k v = (k, v) :: setPlayer rest k v := by
        simp [setPlayer]
      rw [hs, getPlayer, if_pos rfl]
    · have hs : setPlayer ((k, w) :: rest) i v = (k, w) :: setPlayer rest i v := by
        simp [setPlayer, hk]
      rw [getPlayer, if_neg hk] at hv
      rw [hs, getPlayer, if_neg hk]
      exact ih hv

theorem mem_setPlayer {α : Type} {s : Players α} {i : String} {v : PlayerState α}
    {e : String × PlayerState α} (h : e ∈ setPlayer s i v) :
    e ∈ s ∨ e.1 = i ∧ e.2 = v := by
  rcases List.mem_map.mp h with ⟨e0, he0, heq⟩
  by_cases hk : e0.1 = i
  · rw [if_pos hk] at heq
    exact Or.inr ⟨by rw [← heq]; exact hk, by rw [← heq]⟩
  · rw [if_neg hk] at heq
    exact Or.inl (heq ▸ he0)

/-! ## Tick and cooldown arithmetic

`NETWORK.TICK_RATE = 60`, `NETWORK.TICK_INTERVAL_MS = 1000/60`. -/

/-- `cooldownMsToTicks` from `packages/shared/src/utils/abilityUtils.ts`:
`Math.ceil(cooldownMs / (1000 / NETWORK.TICK_RATE))`. -/
def cooldownMsToTicks (cooldownMs : ℚ) : ℤ :=
  Int.ceil (cooldownMs / (1000 / 60))

/-- `isAbilityReady` from `abilityUtils.ts` (current generation, correct for
the `NEVER_USED` initialisation):
`currentTick - lastUsed >= cooldownMsToTicks cooldownMs`. -/
def isAbilityReady (lastUsed : ℤ) (cooldownMs : ℚ) (currentTick : ℤ) : Prop :=
  cooldownMsToTicks cooldownMs ≤ currentTick - lastUsed

instance (lastUsed : ℤ) (cooldownMs : ℚ) (currentTick : ℤ) :
    Decidable (isAbilityReady lastUsed cooldownMs currentTick) := by
  unfold isAbilityReady; infer_instance

/-! ## CombatSystem -/

/-- `DeathEvent` from `CombatSystem.ts`. -/
structure DeathEvent where
  victimId : String
  killerId : String
deriving DecidableEq

/-- `CombatSystem.applyHit`.  The body follows the `CombatSystem` under
`src/` (subtract damage, clamp at zero, flip the alive flag, return the
victim/killer pair on death, `null` if the victim is missing or dead).
Modelled from the spec: the current `CombatSystem.applyHit` additionally
takes the current tick (its caller `InputProcessor` passes it) and stamps
the victim's last-damage tick — "stamp the victim's last-damage tick
(feeds regen)"; that revision of `CombatSystem.ts` is not under `src/`. -/
def applyHit (players : Players ℚ) (victimId killerId : String) (damage : ℚ)
    (currentTick : ℤ) : Players ℚ × Option DeathEvent :=
  match getPlayer players victimId with
  | none => (players, none)
  | some victim =>
    if victim.isAlive = false then (players, none)
    else
      let victim1 := { victim with
        health := victim.health - damage
        lastDamageTick := currentTick }
      if victim1.health ≤ 0 then
        (setPlayer players victimId { victim1 with health := 0, isAlive := false },
          some ⟨victimId, killerId⟩)
      else
        (setPlayer players victimId victim1, none)

/-- `CombatSystem.checkWinCondition`: the alive players among the map's
values; a single survivor is the winner, otherwise no winner. -/
def alivePlayersOf (players : Players ℚ) : List (PlayerState ℚ) :=
  (players.map Prod.snd).filter (fun p => p.isAlive)

/-- `CombatSystem.checkWinCondition` from `CombatSystem.ts`. -/
def checkWinCondition (players : Players ℚ) : Option String :=
  match alivePlayersOf players with
  | [p] => some p.id
  | _ => none

/-! ## HealthRegenSystem -/

/-- `PLAYER.HEALTH_REGEN.RATE_PER_SECOND`. -/
def HEALTH_REGEN_RATE_PER_SECOND : ℚ := 5

/-- `HealthRegenSystem`'s `delayTicks`:
`Math.ceil(PLAYER.HEALTH_REGEN.DELAY_MS / NETWORK.TICK_INTERVAL_MS)` with
`DELAY_MS = 8000`. -/
def regenDelayTicks : ℤ := Int.ceil ((8000 : ℚ) / (1000 / 60))

/-- The per-player body of `HealthRegenSystem.update`. -/
def regenPlayer (currentTick : ℤ) (deltaSeconds : ℚ) (p : PlayerState ℚ) :
    PlayerState ℚ :=
  if p.isAlive = false then p
  else if p.maxHealth ≤ p.health then p
  else if currentTick - p.lastDamageTick < regenDelayTicks then p
  else
    { p with
      health := min (p.health + HEALTH_REGEN_RATE_PER_SECOND * deltaSeconds) p.maxHealth }

/-- `HealthRegenSystem.update` from `HealthRegenSystem.ts`. -/
def healthRegenUpdate (players : Players ℚ) (currentTick : ℤ)
    (deltaSeconds : ℚ) : Players ℚ :=
  players.map (fun e => (e.1, regenPlayer currentTick deltaSeconds e.2))

/-! ## Reachable simulation states (for the health invariant)

States of the player map reachable by the simulation operations named by
the spec: spawning (`createDefaultPlayerState` plus the room-random spawn
position), damage application (`CombatSystem.applyHit`; every damage value
the simulation passes — projectile 25, nova 40, ray 35 — is nonnegative),
and regeneration (`HealthRegenSystem.update`; the tick delta `1/60` is
nonnegative). -/
inductive ReachableState : Players ℚ → Prop
  | empty : ReachableState []
  | spawn (s : Players ℚ) (id name : String) (pos : Vec3 ℚ) :
      ReachableState s →
      ReachableState ((id, { createDefaultPlayerState id name with position := pos }) :: s)
  | hit (s : Players ℚ) (victimId killerId : String) (damage : ℚ) (tick : ℤ) :
      ReachableState s → 0 ≤ damage →
      ReachableState (applyHit s victimId killerId damage tick).1
  | regen (s : Players ℚ) (tick : ℤ) (delta : ℚ) :
      ReachableState s → 0 ≤ delta →
      ReachableState (healthRegenUpdate s tick delta)

/-- The spec's per-player invariant: `0 ≤ health ≤ maxHealth` and
`alive ⇔ health > 0`. -/
def PlayerInvariant (p : PlayerState ℚ) : Prop :=
  0 ≤ p.health ∧ p.health ≤ p.maxHealth ∧ (p.isAlive = true ↔ 0 < p.health)

/-! ## Game phases -/

/-- `GamePhase` from `packages/shared/src/types/messages.ts`. -/
inductive GamePhase where
  | waiting_for_players : GamePhase
  | countdown : GamePhase
  | playing : GamePhase
deriving DecidableEq

/-- `GAME.MIN_PLAYERS_TO_START` from `constants/game.ts`. -/
def MIN_PLAYERS_TO_START : ℕ := 2

/-- `GAME.COUNTDOWN_SECONDS` from `constants/game.ts`. -/
def COUNTDOWN_SECONDS : ℤ := 5

/-- The phase-relevant fields of `GameRoom` (`server/src/game/GameRoom.ts`):
phase, connected-player count, countdown seconds, current tick. -/
structure GameRoomPhase where
  phase : GamePhase
  connectedCount : ℕ
  countdownSeconds : ℤ
  currentTick : ℤ
deriving DecidableEq

namespace GameRoom

/-- `GameRoom.startNewGame` (phase-relevant effect): below the minimum it
falls back to `waiting_for_players`; otherwise it clears per-match state,
resets the tick counter and sets the phase directly to `playing`. -/
def startNewGame (s : GameRoomPhase) : GameRoomPhase :=
  if s.connectedCount < MIN_PLAYERS_TO_START then
    { s with phase := GamePhase.waiting_for_players }
  else
    { s with phase := GamePhase.playing, currentTick := 0 }

/-- `GameRoom.checkAutoStart` from `GameRoom.ts` (lines 179–185): in
`waiting_for_players`, once the connected count reaches the minimum it
calls `startNewGame()` directly. -/
def checkAutoStart (s : GameRoomPhase) : GameRoomPhase :=
  if s.phase ≠ GamePhase.waiting_for_players then s
  else if MIN_PLAYERS_TO_START ≤ s.connectedCount then startNewGame s
  else s

end GameRoom

/-- The phase-relevant fields of `GamePhaseManager`
(`server/src/game/GamePhaseManager.ts`). -/
structure PhaseManagerState where
  phase : GamePhase
  countdownSeconds : ℤ
deriving DecidableEq

namespace GamePhaseManager

/-- `GamePhaseManager.startCountdown`: enter `countdown` with
`COUNTDOWN_SECONDS` on the clock. -/
def startCountdown (s : PhaseManagerState) : PhaseManagerState :=
  { s with phase := GamePhase.countdown, countdownSeconds := COUNTDOWN_SECONDS }

/-- `GamePhaseManager.checkAutoStart` from `GamePhaseManager.ts`
(lines 38–44): only in `waiting_for_players`, and once
`playerCount ≥ GAME.MIN_PLAYERS_TO_START` it starts the countdown. -/
def checkAutoStart (playerCount : ℕ) (s : PhaseManagerState) : PhaseManagerState :=
  if s.phase ≠ GamePhase.waiting_for_players then s
  else if MIN_PLAYERS_TO_START ≤ playerCount then startCountdown s
  else s

end GamePhaseManager

/-! # Claims -/

/-- **C7.** For every player map, `CombatSystem.checkWinCondition` returns
the id of the unique alive player when exactly one player in the map is
alive, and returns `null` when zero players or two or more players are
alive. -/
theorem checkWinCondition_last_player_standing (players : Players ℚ) :
    ((alivePlayersOf players).length = 1 →
      ∃ p, alivePlayersOf players = [p] ∧ p.isAlive = true ∧
        p ∈ players.map Prod.snd ∧ checkWinCondition players = some p.id) ∧
    ((alivePlayersOf players).length ≠ 1 → checkWinCondition players = none) := by
  constructor
  · intro h1
    match halive : alivePlayersOf players with
    | [p] =>
      refine ⟨p, rfl, ?_, ?_, ?_⟩
      · have : p ∈ alivePlayersOf players := by rw [halive]; exact List.mem_singleton_self p
        exact (List.mem_filter.mp this).2
      · have : p ∈ alivePlayersOf players := by rw [halive]; exact List.mem_singleton_self p
        exact List.mem_filter.mp this |>.1
      · rw [checkWinCondition, halive]
    | [] => rw [halive] at h1; simp at h1
    | p :: q :: rest => rw [halive] at h1; simp at h1
  · intro hne
    match halive : alivePlayersOf players with
    | [p] => rw [halive] at hne; simp at hne
    | [] => rw [checkWinCondition, halive]
    | p :: q :: rest => rw [checkWinCondition, halive]

/-- Concrete players for the win-condition witness: A alive, B and C dead. -/
def winDemoPlayers : Players ℚ :=
  [("A", createDefaultPlayerState "A" "Alice"),
   ("B", { createDefaultPlayerState "B" "Bob" with health := 0, isAlive := false }),
   ("C", { createDefaultPlayerState "C" "Cara" with health := 0, isAlive := false })]

/-- Witness for C7: with `{A: alive, B: dead, C: dead}` the theorem yields a
unique alive player and `checkWinCondition` returns `A`'s id. -/
theorem checkWinCondition_last_player_standing_witness :
    (alivePlayersOf winDemoPlayers).length = 1 ∧
    ∃ p, alivePlayersOf winDemoPlayers = [p] ∧ p.isAlive = true ∧
      p ∈ winDemoPlayers.map Prod.snd ∧ checkWinCondition winDemoPlayers = some p.id :=
  ⟨by decide, (checkWinCondition_last_player_standing winDemoPlayers).1 (by decide)⟩

/-- **C2.** The claim states that reaching the configured minimum in
`waiting_for_players` transitions the room to `countdown`, not directly to
`playing`.  The wired `GameRoom.checkAutoStart` contradicts this (and its
own project documentation and the tested `GamePhaseManager`): it calls
`startNewGame()`, which jumps the phase directly to `playing`.  This
theorem evaluates both embedded transition functions at the failing input
(waiting phase, exactly the minimum of 2 connected players): the room goes
to `playing` while the extracted phase manager goes to `countdown` with
the fixed 5-second countdown. -/
theorem gameRoom_autoStart_skips_countdown :
    (GameRoom.checkAutoStart ⟨GamePhase.waiting_for_players, 2, 0, 37⟩).phase =
      GamePhase.playing ∧
    (GameRoom.checkAutoStart ⟨GamePhase.waiting_for_players, 2, 0, 37⟩).phase ≠
      GamePhase.countdown ∧
    (GamePhaseManager.checkAutoStart 2 ⟨GamePhase.waiting_for_players, 0⟩).phase =
      GamePhase.countdown ∧
    (GamePhaseManager.checkAutoStart 2 ⟨GamePhase.waiting_for_players, 0⟩).countdownSeconds = 5 := by
  refine ⟨?_, ?_, ?_, ?_⟩ <;> decide


/-- `regenDelayTicks` evaluates to 480 ticks (8 seconds at 60 Hz). -/
theorem regenDelayTicks_eq : regenDelayTicks = 480 := by
  norm_num [regenDelayTicks]

/-- Reduction of `applyHit` on an alive victim: the two clamp branches. -/
theorem applyHit_of_alive (s : Players ℚ) (victimId killerId : String) (damage : ℚ)
    (currentTick : ℤ) (victim : PlayerState ℚ)
    (hget : getPlayer s victimId = some victim) (halive : victim.isAlive = true) :
    applyHit s victimId killerId damage currentTick =
      if victim.health - damage ≤ 0 then
        (setPlayer s victimId
          { victim with health := 0, isAlive := false, lastDamageTick := currentTick },
          some ⟨victimId, killerId⟩)
      else
        (setPlayer s victimId
          { victim with health := victim.health - damage, lastDamageTick := currentTick },
          none) := by
  simp only [applyHit, hget]
  rw [if_neg (by simp [halive])]

/-- Invariant of a freshly spawned player. -/
theorem playerInvariant_default (id name : String) (pos : Vec3 ℚ) :
    PlayerInvariant { createDefaultPlayerState id name with position := pos } := by
  refine ⟨by norm_num [createDefaultPlayerState], by norm_num [createDefaultPlayerState], ?_⟩
  norm_num [createDefaultPlayerState]

/-- `applyHit` preserves the per-player invariant for nonnegative damage. -/
theorem playerInvariant_applyHit (s : Players ℚ) (victimId killerId : String)
    (damage : ℚ) (tick : ℤ) (hdmg : 0 ≤ damage)
    (hs : ∀ e ∈ s, PlayerInvariant e.2) :
    ∀ e ∈ (applyHit s victimId killerId damage tick).1, PlayerInvariant e.2 := by
  intro e he
  cases hget : getPlayer s victimId with
  | none => simp only [applyHit, hget] at he; exact hs e he
  | some victim =>
    have hvinv : PlayerInvariant victim := hs _ (getPlayer_mem hget)
    cases hb : victim.isAlive with
    | false => simp only [applyHit, hget, hb] at he; exact hs e he
    | true =>
      rw [applyHit_of_alive s victimId killerId damage tick victim hget hb] at he
      by_cases hdead : victim.health - damage ≤ 0
      · rw [if_pos hdead] at he
        rcases mem_setPlayer he with hmem | ⟨_, hv⟩
        · exact hs e hmem
        · rw [hv]
          exact ⟨le_refl 0, le_trans hvinv.1 hvinv.2.1, by simp⟩
      · rw [if_neg hdead] at he
        rcases mem_setPlayer he with hmem | ⟨_, hv⟩
        · exact hs e hmem
        · rw [hv]
          have hpos : 0 < victim.health - damage := lt_of_not_le hdead
          refine ⟨le_of_lt hpos, ?_, ?_⟩
          · calc victim.health - damage ≤ victim.health := by linarith
              _ ≤ victim.maxHealth := hvinv.2.1
          · simpa [hb] using hpos

/-- `healthRegenUpdate` preserves the per-player invariant for a
nonnegative tick delta. -/
theorem playerInvariant_regen (s : Players ℚ) (tick : ℤ) (delta : ℚ)
    (hdelta : 0 ≤ delta) (hs : ∀ e ∈ s, PlayerInvariant e.2) :
    ∀ e ∈ healthRegenUpdate s tick delta, PlayerInvariant e.2 := by
  intro e he
  rcases List.mem_map.mp he with ⟨e0, he0, heq⟩
  have h0 : PlayerInvariant e0.2 := hs e0 he0
  rw [← heq]
  show PlayerInvariant (regenPlayer tick delta e0.2)
  rw [regenPlayer]
  by_cases hdead : e0.2.isAlive = false
  · rw [if_pos hdead]; exact h0
  · rw [if_neg hdead]
    by_cases hfull : e0.2.maxHealth ≤ e0.2.health
    · rw [if_pos hfull]; exact h0
    · rw [if_neg hfull]
      by_cases hrecent : tick - e0.2.lastDamageTick < regenDelayTicks
      · rw [if_pos hrecent]; exact h0
      · rw [if_neg hrecent]
        have halive : e0.2.isAlive = true := by simpa using hdead
        have hpos : 0 < e0.2.health := h0.2.2.mp halive
        have hrate : 0 ≤ HEALTH_REGEN_RATE_PER_SECOND * delta := by
          have h5 : (0:ℚ) ≤ 5 := by norm_num
          simpa [HEALTH_REGEN_RATE_PER_SECOND] using mul_nonneg h5 hdelta
        refine ⟨?_, ?_, ?_⟩
        · exact le_min (by linarith) (le_trans h0.1 h0.2.1)
        · exact min_le_right _ _
        · simp only [halive, true_iff]
          exact lt_min (by linarith) (lt_of_lt_of_le hpos h0.2.1)

/-- **C1.** For every player in every state reachable by the simulation
operations (spawning via `createDefaultPlayerState`, damage application via
`CombatSystem.applyHit` with the simulation's nonnegative damage values,
regeneration via `HealthRegenSystem.update` with the nonnegative tick
delta), the player's health satisfies `0 ≤ health ≤ maxHealth`, and
`isAlive` is true if and only if `health > 0`. -/
theorem health_invariant_reachable (s : Players ℚ) (h : ReachableState s) :
    ∀ e ∈ s, PlayerInvariant e.2 := by
  induction h with
  | empty => intro e he; simp at he
  | spawn s id name pos _ ih =>
    intro e he
    rcases List.mem_cons.mp he with hhead | htail
    · rw [hhead]; exact playerInvariant_default id name pos
    · exact ih e htail
  | hit s victimId killerId damage tick _ hdmg ih =>
    exact playerInvariant_applyHit s victimId killerId damage tick hdmg ih
  | regen s tick delta _ hdelta ih =>
    exact playerInvariant_regen s tick delta hdelta ih

/-- A concrete reachable state for the C1 witness: spawn two players, land a
40-damage nova hit on one of them, then run a regen tick. -/
def reachDemoState : Players ℚ :=
  healthRegenUpdate
    (applyHit
      (("B", { createDefaultPlayerState "B" "Bob" with position := ⟨3, 1, 0⟩ }) ::
        ("A", { createDefaultPlayerState "A" "Alice" with position := ⟨0, 1, 0⟩ }) :: [])
      "B" "A" 40 12).1
    500 (1/60)

/-- Witness for C1: the demo state is reachable, every player in it
satisfies the invariant, and the damaged player concretely regenerated to
`60 + 5/60` health below the 100 cap. -/
theorem health_invariant_reachable_witness :
    (∀ e ∈ reachDemoState, PlayerInvariant e.2) ∧
    getPlayer reachDemoState "B" = some
      { createDefaultPlayerState "B" "Bob" with
          position := ⟨3, 1, 0⟩, health := 60 + 5 * (1/60), lastDamageTick := 12 } := by
  constructor
  · exact health_invariant_reachable reachDemoState
      (ReachableState.regen _ 500 (1/60)
        (ReachableState.hit _ "B" "A" 40 12
          (ReachableState.spawn _ "B" "Bob" ⟨3, 1, 0⟩
            (ReachableState.spawn _ "A" "Alice" ⟨0, 1, 0⟩ ReachableState.empty))
          (by norm_num))
        (by norm_num))
  · norm_num [reachDemoState, healthRegenUpdate, regenPlayer, regenDelayTicks_eq,
      applyHit, getPlayer, setPlayer, createDefaultPlayerState, createDefaultAbilityState,
      HEALTH_REGEN_RATE_PER_SECOND]

/-- **C3.** For every player map containing an alive victim,
`CombatSystem.applyHit` subtracts the given damage from the victim's
health, clamps health at zero, flips the victim's alive flag to false
exactly when health reaches zero, returns the death's victim/killer pair
in that case (`null` otherwise), and stamps the victim's last-damage tick
with the current tick.  (The stamping clause is settled against the
spec-modelled tick parameter of `applyHit`; see its doc comment.) -/
theorem applyHit_damages_clamps_stamps (s : Players ℚ) (victimId killerId : String)
    (damage : ℚ) (currentTick : ℤ) (victim : PlayerState ℚ)
    (hget : getPlayer s victimId = some victim) (halive : victim.isAlive = true) :
    ∃ victim',
      getPlayer (applyHit s victimId killerId damage currentTick).1 victimId = some victim' ∧
      victim'.health = max (victim.health - damage) 0 ∧
      victim'.lastDamageTick = currentTick ∧
      (victim'.isAlive = false ↔ victim'.health = 0) ∧
      ((applyHit s victimId killerId damage currentTick).2 = some ⟨victimId, killerId⟩ ↔
        victim.health - damage ≤ 0) ∧
      ((applyHit s victimId killerId damage currentTick).2 = none ↔
        0 < victim.health - damage) := by
  have hsome : (getPlayer s victimId).isSome := by rw [hget]; rfl
  rw [applyHit_of_alive s victimId killerId damage currentTick victim hget halive]
  by_cases hdead : victim.health - damage ≤ 0
  · rw [if_pos hdead]
    refine ⟨{ victim with health := 0, isAlive := false, lastDamageTick := currentTick },
      getPlayer_setPlayer_self s victimId _ hsome, ?_, rfl, ?_, ?_, ?_⟩
    · simp [max_eq_right hdead]
    · simp
    · simpa using hdead
    · exact iff_of_false (by simp) (not_lt.mpr hdead)
  · have hpos : 0 < victim.health - damage := lt_of_not_le hdead
    rw [if_neg hdead]
    refine ⟨{ victim with health := victim.health - damage, lastDamageTick := currentTick },
      getPlayer_setPlayer_self s victimId _ hsome, ?_, rfl, ?_, ?_, ?_⟩
    · simp [max_eq_left (le_of_lt hpos)]
    · exact iff_of_false (by simp [halive]) (by simpa using ne_of_gt hpos)
    · exact iff_of_false (by simp) hdead
    · exact iff_of_true rfl hpos

/-- Concrete victim map for the C3 witness: V is alive at 30 health. -/
def hitDemoPlayers : Players ℚ :=
  [("V", { createDefaultPlayerState "V" "Vera" with health := 30 }),
   ("K", createDefaultPlayerState "K" "Kai")]

/-- Witness for C3: a 40-damage hit on a 30-health victim at tick 9 clamps
health to zero, kills, reports the victim/killer pair and stamps tick 9. -/
theorem applyHit_damages_clamps_stamps_witness :
    getPlayer hitDemoPlayers "V" =
      some { createDefaultPlayerState "V" "Vera" with health := 30 } ∧
    ({ createDefaultPlayerState "V" "Vera" with health := 30 } : PlayerState ℚ).isAlive = true ∧
    ∃ victim',
      getPlayer (applyHit hitDemoPlayers "V" "K" 40 9).1 "V" = some victim' ∧
      victim'.health = max (((30:ℚ)) - 40) 0 ∧
      victim'.lastDamageTick = 9 ∧
      (victim'.isAlive = false ↔ victim'.health = 0) ∧
      ((applyHit hitDemoPlayers "V" "K" 40 9).2 = some ⟨"V", "K"⟩ ↔ ((30:ℚ)) - 40 ≤ 0) ∧
      ((applyHit hitDemoPlayers "V" "K" 40 9).2 = none ↔ (0:ℚ) < 30 - 40) := by
  refine ⟨by decide, by decide, ?_⟩
  have h := applyHit_damages_clamps_stamps hitDemoPlayers "V" "K" 40 9
    { createDefaultPlayerState "V" "Vera" with health := 30 } (by decide) (by decide)
  simpa [createDefaultPlayerState] using h

/-! ## NovaBlastSystem -/

/-- `ABILITIES.NOVA_BLAST` constants from `constants/abilities.ts`. -/
def NOVA_BLAST_COOLDOWN_MS : ℚ := 8000

/-- `ABILITIES.NOVA_BLAST.DAMAGE`. -/
def NOVA_BLAST_DAMAGE : ℚ := 40

/-- `ABILITIES.NOVA_BLAST.RADIUS`. -/
def NOVA_BLAST_RADIUS : ℚ := 5

/-- `NovaBlastResult` from `NovaBlastSystem.ts`. -/
structure NovaBlastResult where
  casterId : String
  casterPosition : Vec3 ℚ
  hitPlayerIds : List String
  damage : ℚ
deriving DecidableEq

/-- The squared 3D distance computed in `fireNovaBlast`'s loop
(`dx*dx + dy*dy + dz*dz`). -/
def novaDistSq (p caster : Vec3 ℚ) : ℚ :=
  (p.x - caster.x) * (p.x - caster.x) + (p.y - caster.y) * (p.y - caster.y) +
    (p.z - caster.z) * (p.z - caster.z)

/-- `recordAbilityUse` from `abilityUtils.ts` applied to the nova-blast
slot: stamp `lastUsed`, clear `ready`, reset `cooldownRemaining`. -/
def recordNovaBlastUse (caster : PlayerState ℚ) (currentTick : ℤ) : PlayerState ℚ :=
  { caster with abilities := { caster.abilities with
      novaBlast := ⟨false, NOVA_BLAST_COOLDOWN_MS, currentTick⟩ } }

/-- The eligibility test of `fireNovaBlast`'s loop: not the caster, alive,
and within the squared radius. -/
def novaHits (caster : PlayerState ℚ) (e : String × PlayerState ℚ) : Bool :=
  decide (e.1 ≠ caster.id ∧ e.2.isAlive = true ∧
    novaDistSq e.2.position caster.position ≤ NOVA_BLAST_RADIUS * NOVA_BLAST_RADIUS)

/-- `NovaBlastSystem.fireNovaBlast` from `NovaBlastSystem.ts`: cooldown
gate, record usage, then collect every other alive player within the fixed
3D radius of the caster's position.  Returned alongside the mutated caster. -/
def fireNovaBlast (caster : PlayerState ℚ) (players : Players ℚ) (currentTick : ℤ) :
    PlayerState ℚ × Option NovaBlastResult :=
  if ¬ isAbilityReady caster.abilities.novaBlast.lastUsed NOVA_BLAST_COOLDOWN_MS currentTick then
    (caster, none)
  else
    let caster' := recordNovaBlastUse caster currentTick
    let radiusSq := NOVA_BLAST_RADIUS * NOVA_BLAST_RADIUS
    let hitPlayerIds := players.foldl (fun acc e =>
      if e.1 = caster.id then acc
      else if e.2.isAlive = false then acc
      else if novaDistSq e.2.position caster.position ≤ radiusSq then acc ++ [e.1]
      else acc) []
    (caster', some ⟨caster.id, caster.position, hitPlayerIds, NOVA_BLAST_DAMAGE⟩)

/-- The collection loop of `fireNovaBlast` computes exactly the ids of the
eligible players, in map order. -/
theorem novaBlast_foldl_eq (caster : PlayerState ℚ) (players : Players ℚ)
    (acc : List String) :
    players.foldl (fun acc e =>
      if e.1 = caster.id then acc
      else if e.2.isAlive = false then acc
      else if novaDistSq e.2.position caster.position ≤
          NOVA_BLAST_RADIUS * NOVA_BLAST_RADIUS then acc ++ [e.1]
      else acc) acc =
    acc ++ (players.filter (novaHits caster)).map Prod.fst := by
  induction players generalizing acc with
  | nil => simp
  | cons e rest ih =>
    rw [List.foldl_cons]
    by_cases hid : e.1 = caster.id
    · rw [if_pos hid, ih]
      have : novaHits caster e = false := by simp [novaHits, hid]
      rw [List.filter_cons_of_neg (by simp [this])]
    · rw [if_neg hid]
      by_cases hdead : e.2.isAlive = false
      · rw [if_pos hdead, ih]
        have : novaHits caster e = false := by simp [novaHits, hdead]
        rw [List.filter_cons_of_neg (by simp [this])]
      · rw [if_neg hdead]
        have halive : e.2.isAlive = true := by simpa using hdead
        by_cases hdist : novaDistSq e.2.position caster.position ≤
            NOVA_BLAST_RADIUS * NOVA_BLAST_RADIUS
        · rw [if_pos hdist, ih]
          have : novaHits caster e = true := by simp [novaHits, hid, halive, hdist]
          rw [List.filter_cons_of_pos (by simp [this])]
          simp
        · rw [if_neg hdist, ih]
          have : novaHits caster e = false := by simp [novaHits, hdist]
          rw [List.filter_cons_of_neg (by simp [this])]

/-- **C4.** For every caster whose nova-blast ability is off cooldown,
`NovaBlastSystem.fireNovaBlast` records the cooldown usage immediately
(`lastUsed`/`ready`/`cooldownRemaining`) even when the hit list is empty,
and the returned hit list contains exactly the alive players other than
the caster whose 3D distance from the caster's position is at most the
configured radius (the code's `distSq ≤ radius²`, which over the exact
rationals is `distance ≤ radius`): a target at distance exactly the radius
is hit, a farther one is not, and the caster itself is never hit. -/
theorem fireNovaBlast_hits_within_radius (caster : PlayerState ℚ) (players : Players ℚ)
    (currentTick : ℤ)
    (hready : isAbilityReady caster.abilities.novaBlast.lastUsed NOVA_BLAST_COOLDOWN_MS currentTick) :
    ∃ r, fireNovaBlast caster players currentTick = (recordNovaBlastUse caster currentTick, some r) ∧
      (recordNovaBlastUse caster currentTick).abilities.novaBlast.lastUsed = currentTick ∧
      (recordNovaBlastUse caster currentTick).abilities.novaBlast.ready = false ∧
      (recordNovaBlastUse caster currentTick).abilities.novaBlast.cooldownRemaining =
        NOVA_BLAST_COOLDOWN_MS ∧
      r.hitPlayerIds = (players.filter (novaHits caster)).map Prod.fst ∧
      caster.id ∉ r.hitPlayerIds ∧
      r.casterId = caster.id ∧ r.casterPosition = caster.position ∧
      r.damage = NOVA_BLAST_DAMAGE := by
  refine ⟨⟨caster.id, caster.position,
    (players.filter (novaHits caster)).map Prod.fst, NOVA_BLAST_DAMAGE⟩, ?_, rfl, rfl, rfl,
    rfl, ?_, rfl, rfl, rfl⟩
  · rw [fireNovaBlast, if_neg (by simpa using hready)]
    dsimp only
    rw [novaBlast_foldl_eq caster players []]
    rw [List.nil_append]
  · intro hmem
    rcases List.mem_map.mp hmem with ⟨e, hef, hid⟩
    have := List.of_mem_filter hef
    rw [novaHits] at this
    exact (of_decide_eq_true this).1 hid

/-- Nova-blast witness caster (default spawn at the origin column). -/
def novaCaster : PlayerState ℚ := createDefaultPlayerState "A" "Alice"

/-- Nova-blast witness map: the caster itself, a target at distance exactly
5 (the radius), and a target at distance 5.1. -/
def novaDemoPlayers : Players ℚ :=
  [("A", novaCaster),
   ("B", { createDefaultPlayerState "B" "Bob" with position := ⟨3, 1, 4⟩ }),
   ("C", { createDefaultPlayerState "C" "Cara" with position := ⟨0, 1, 51/10⟩ })]

/-- `cooldownMsToTicks` of the nova-blast cooldown is 480 ticks. -/
theorem novaCooldownTicks_eq : cooldownMsToTicks NOVA_BLAST_COOLDOWN_MS = 480 := by
  norm_num [cooldownMsToTicks, NOVA_BLAST_COOLDOWN_MS]

/-- Witness for C4: the freshly spawned caster is off cooldown at tick 100;
the hit list evaluates to exactly `[B]` — the target at distance exactly 5
is hit, the one at 5.1 is not, and the caster is excluded. -/
theorem fireNovaBlast_hits_within_radius_witness :
    isAbilityReady novaCaster.abilities.novaBlast.lastUsed NOVA_BLAST_COOLDOWN_MS 100 ∧
    (novaDemoPlayers.filter (novaHits novaCaster)).map Prod.fst = ["B"] ∧
    ∃ r, fireNovaBlast novaCaster novaDemoPlayers 100 = (recordNovaBlastUse novaCaster 100, some r) ∧
      (recordNovaBlastUse novaCaster 100).abilities.novaBlast.lastUsed = 100 ∧
      (recordNovaBlastUse novaCaster 100).abilities.novaBlast.ready = false ∧
      (recordNovaBlastUse novaCaster 100).abilities.novaBlast.cooldownRemaining =
        NOVA_BLAST_COOLDOWN_MS ∧
      r.hitPlayerIds = (novaDemoPlayers.filter (novaHits novaCaster)).map Prod.fst ∧
      novaCaster.id ∉ r.hitPlayerIds ∧
      r.casterId = novaCaster.id ∧ r.casterPosition = novaCaster.position ∧
      r.damage = NOVA_BLAST_DAMAGE := by
  have hready : isAbilityReady novaCaster.abilities.novaBlast.lastUsed NOVA_BLAST_COOLDOWN_MS 100 := by
    rw [isAbilityReady, novaCooldownTicks_eq]
    norm_num [novaCaster, createDefaultPlayerState, createDefaultAbilityState, NEVER_USED]
  refine ⟨hready, ?_,
    fireNovaBlast_hits_within_radius novaCaster novaDemoPlayers 100 hready⟩
  norm_num [novaDemoPlayers, novaCaster, novaHits, novaDistSq, createDefaultPlayerState,
    NOVA_BLAST_RADIUS, List.filter]
  decide

/-! ## Arena geometry (`packages/shared/src/data/arenaCollision.ts`)

The collision data is given over an arbitrary field so that the same exact
values serve the rational projectile checks and the real-valued
arena-collision resolver. -/

/-- `CollisionAABB` from `packages/shared/src/types/collision.ts`. -/
structure CollisionAABB (α : Type) where
  min : Vec3 α
  max : Vec3 α
deriving DecidableEq

/-- `CollisionCylinder` from `collision.ts`: base center (y = 0), radius,
height. -/
structure CollisionCylinder (α : Type) where
  center : Vec3 α
  radius : α
  height : α
deriving DecidableEq

/-- `createAABB` helper from `arenaCollision.ts`: center plus size. -/
def createAABB {α : Type} [Field α] (cx cy cz w h d : α) : CollisionAABB α :=
  { min := ⟨cx - w / 2, cy - h / 2, cz - d / 2⟩
    max := ⟨cx + w / 2, cy + h / 2, cz + d / 2⟩ }

/-- `createCylinder` helper from `arenaCollision.ts`. -/
def createCylinder {α : Type} [Field α] (cx cz height radius : α) : CollisionCylinder α :=
  { center := ⟨cx, 0, cz⟩, radius := radius, height := height }

/-- `ARENA_COLLISION.walls`: the four outer walls (`ARENA_SIZE = 60`,
height 4, thickness 1) and the four cover obstacles. -/
def arenaWalls (α : Type) [Field α] : List (CollisionAABB α) :=
  [createAABB 0 2 (-(60 / 2)) 60 4 1,
   createAABB 0 2 (60 / 2) 60 4 1,
   createAABB (-(60 / 2)) 2 0 1 4 60,
   createAABB (60 / 2) 2 0 1 4 60,
   createAABB (-12) (3 / 4) 0 2 (3 / 2) 4,
   createAABB 12 (3 / 4) 0 2 (3 / 2) 4,
   createAABB 0 (3 / 4) (-12) 4 (3 / 2) 2,
   createAABB 0 (3 / 4) 12 4 (3 / 2) 2]

/-- `ARENA_COLLISION.platforms`: thin caps over the cover obstacles, the
central platform, corner platforms (two levels), side platforms, floating
platforms and the central tower. -/
def arenaPlatforms (α : Type) [Field α] : List (CollisionAABB α) :=
  [createAABB (-12) (3 / 2) 0 2 (1 / 10) 4,
   createAABB 12 (3 / 2) 0 2 (1 / 10) 4,
   createAABB 0 (3 / 2) (-12) 4 (1 / 10) 2,
   createAABB 0 (3 / 2) 12 4 (1 / 10) 2,
   createAABB 0 2 0 12 (1 / 2) 12,
   createAABB (-20) (3 / 2) (-20) 8 (1 / 2) 8,
   createAABB 20 (3 / 2) (-20) 8 (1 / 2) 8,
   createAABB (-20) (3 / 2) 20 8 (1 / 2) 8,
   createAABB 20 (3 / 2) 20 8 (1 / 2) 8,
   createAABB (-20) 4 (-20) 5 (1 / 2) 5,
   createAABB 20 4 (-20) 5 (1 / 2) 5,
   createAABB (-20) 4 20 5 (1 / 2) 5,
   createAABB 20 4 20 5 (1 / 2) 5,
   createAABB (-20) (5 / 2) 0 6 (1 / 2) 10,
   createAABB 20 (5 / 2) 0 6 (1 / 2) 10,
   createAABB 0 (5 / 2) (-20) 10 (1 / 2) 6,
   createAABB 0 (5 / 2) 20 10 (1 / 2) 6,
   createAABB (-10) 5 (-10) 4 (1 / 2) 4,
   createAABB 10 5 (-10) 4 (1 / 2) 4,
   createAABB (-10) 5 10 4 (1 / 2) 4,
   createAABB 10 5 10 4 (1 / 2) 4,
   createAABB 0 6 0 6 (1 / 2) 6]

/-- `ARENA_COLLISION.cylinders`: the four decorative pillars. -/
def arenaCylinders (α : Type) [Field α] : List (CollisionCylinder α) :=
  [createCylinder (-6) (-6) 6 (1 / 2),
   createCylinder 6 (-6) 6 (1 / 2),
   createCylinder (-6) 6 6 (1 / 2),
   createCylinder 6 6 6 (1 / 2)]

/-! ## ProjectileSystem -/

/-- `ProjectileState` from `packages/shared/src/types/projectile.ts`
(single `FIREBALL` type). -/
structure ProjectileState where
  id : String
  ownerId : String
  position : Vec3 ℚ
  velocity : Vec3 ℚ
  createdAt : ℤ
  lifetime : ℕ
  damage : ℚ
  radius : ℚ
deriving DecidableEq

/-- The server's `Map<string, ProjectileState>` in insertion order. -/
abbrev Projectiles := List (String × ProjectileState)

/-- `sphereOverlapsAABB` from `collisionMath.ts` (at the rational carrier). -/
def sphereOverlapsAABB (position : Vec3 ℚ) (radius : ℚ) (aabb : CollisionAABB ℚ) : Prop :=
  let closestX := max aabb.min.x (min position.x aabb.max.x)
  let closestY := max aabb.min.y (min position.y aabb.max.y)
  let closestZ := max aabb.min.z (min position.z aabb.max.z)
  let dx := position.x - closestX
  let dy := position.y - closestY
  let dz := position.z - closestZ
  dx * dx + dy * dy + dz * dz ≤ radius * radius

instance (position : Vec3 ℚ) (radius : ℚ) (aabb : CollisionAABB ℚ) :
    Decidable (sphereOverlapsAABB position radius aabb) := by
  unfold sphereOverlapsAABB; infer_instance

/-- `sphereOverlapsCylinder` from `collisionMath.ts` (at the rational
carrier). -/
def sphereOverlapsCylinder (position : Vec3 ℚ) (radius : ℚ)
    (cylinder : CollisionCylinder ℚ) : Prop :=
  ¬ (position.y + radius < cylinder.center.y ∨
      cylinder.center.y + cylinder.height < position.y - radius) ∧
  (position.x - cylinder.center.x) * (position.x - cylinder.center.x) +
      (position.z - cylinder.center.z) * (position.z - cylinder.center.z) ≤
    (radius + cylinder.radius) * (radius + cylinder.radius)

instance (position : Vec3 ℚ) (radius : ℚ) (cylinder : CollisionCylinder ℚ) :
    Decidable (sphereOverlapsCylinder position radius cylinder) := by
  unfold sphereOverlapsCylinder; infer_instance

/-- `ProjectileSystem.checkArenaCollision`: the projectile sphere overlaps
some wall, platform or pillar. -/
def projectileHitsArena (pr : ProjectileState) : Prop :=
  (∃ w ∈ arenaWalls ℚ, sphereOverlapsAABB pr.position pr.radius w) ∨
  (∃ p ∈ arenaPlatforms ℚ, sphereOverlapsAABB pr.position pr.radius p) ∨
  (∃ c ∈ arenaCylinders ℚ, sphereOverlapsCylinder pr.position pr.radius c)

instance (pr : ProjectileState) : Decidable (projectileHitsArena pr) := by
  unfold projectileHitsArena; infer_instance

/-- The out-of-bounds check of `ProjectileSystem.update`
(`maxDistance = 100`). -/
def projectileOutOfBounds (pr : ProjectileState) : Prop :=
  100 < |pr.position.x| ∨ 100 < |pr.position.y| ∨ 100 < |pr.position.z|

instance (pr : ProjectileState) : Decidable (projectileOutOfBounds pr) := by
  unfold projectileOutOfBounds; infer_instance

/-- The position integration of `ProjectileSystem.update`
(`position += velocity * deltaSeconds`). -/
def moveProjectile (dt : ℚ) (pr : ProjectileState) : ProjectileState :=
  { pr with position := ⟨pr.position.x + pr.velocity.x * dt,
      pr.position.y + pr.velocity.y * dt,
      pr.position.z + pr.velocity.z * dt⟩ }

/-- A projectile is pushed onto `expiredIds` by `ProjectileSystem.update`
at `currentTick` (after having been moved) when it collides with arena
geometry, its age reaches its lifetime, or it is out of bounds. -/
def projectileExpired (currentTick : ℤ) (pr : ProjectileState) : Prop :=
  projectileHitsArena pr ∨ (pr.lifetime : ℤ) ≤ currentTick - pr.createdAt ∨
    projectileOutOfBounds pr

instance (currentTick : ℤ) (pr : ProjectileState) :
    Decidable (projectileExpired currentTick pr) := by
  unfold projectileExpired; infer_instance

/-- `ProjectileSystem.update`: move every projectile, then report the ids
to expire (collision, lifetime, bounds — the source may push an id twice;
as a set of ids this filter is the same). -/
def projectileUpdate (projectiles : Projectiles) (currentTick : ℤ) (dt : ℚ) :
    Projectiles × List String :=
  let moved := projectiles.map (fun e => (e.1, moveProjectile dt e.2))
  (moved, (moved.filter (fun e => decide (projectileExpired currentTick e.2))).map Prod.fst)

/-- One projectile tick as the `GameRoom` loop performs it: run
`ProjectileSystem.update`, then delete every expired id from the map. -/
def projectileStep (projectiles : Projectiles) (currentTick : ℤ) (dt : ℚ) :
    Projectiles :=
  ((projectileUpdate projectiles currentTick dt).1).filter
    (fun e => ! decide (projectileExpired currentTick e.2))

/-- `n` projectile ticks starting at tick `startTick` (ticks
`startTick, …, startTick + n - 1`). -/
def runProjectileTicks (projectiles : Projectiles) (startTick : ℤ) (dt : ℚ) :
    ℕ → Projectiles
  | 0 => projectiles
  | n + 1 => projectileStep (runProjectileTicks projectiles startTick dt n)
      (startTick + n) dt

/-- `n` position integrations. -/
def moveProjectileN (dt : ℚ) : ℕ → ProjectileState → ProjectileState
  | 0, pr => pr
  | n + 1, pr => moveProjectile dt (moveProjectileN dt n pr)

theorem moveProjectileN_createdAt (dt : ℚ) (n : ℕ) (pr : ProjectileState) :
    (moveProjectileN dt n pr).createdAt = pr.createdAt := by
  induction n with
  | zero => rfl
  | succ n ih => rw [moveProjectileN, moveProjectile]; exact ih

theorem moveProjectileN_lifetime (dt : ℚ) (n : ℕ) (pr : ProjectileState) :
    (moveProjectileN dt n pr).lifetime = pr.lifetime := by
  induction n with
  | zero => rfl
  | succ n ih => rw [moveProjectileN, moveProjectile]; exact ih

/-- In a list with `Nodup` keys, a key determines its entry. -/
theorem entry_eq_of_nodup_keys {β : Type} {l : List (String × β)}
    (hnodup : (l.map Prod.fst).Nodup) {a : String} {b c : β}
    (hb : (a, b) ∈ l) (hc : (a, c) ∈ l) : b = c := by
  induction l with
  | nil => simp at hb
  | cons e rest ih =>
    rw [List.map_cons, List.nodup_cons] at hnodup
    rcases List.mem_cons.mp hb with hb1 | hb2 <;> rcases List.mem_cons.mp hc with hc1 | hc2
    · rw [← hb1] at hc1; exact congrArg Prod.snd hc1.symm
    · exact absurd (List.mem_map_of_mem Prod.fst hc2)
        (by rw [← hb1] at hnodup; exact fun hm => hnodup.1 hm)
    · exact absurd (List.mem_map_of_mem Prod.fst hb2)
        (by rw [← hc1] at hnodup; exact fun hm => hnodup.1 hm)
    · exact ih hnodup.2 hb2 hc2

/-- A projectile step only keeps keys of its input, in order. -/
theorem projectileStep_keys_sublist (projectiles : Projectiles) (t : ℤ) (dt : ℚ) :
    ((projectileStep projectiles t dt).map Prod.fst).Sublist
      (projectiles.map Prod.fst) := by
  have h1 : ((projectileStep projectiles t dt).map Prod.fst).Sublist
      (((projectileUpdate projectiles t dt).1).map Prod.fst) :=
    (List.filter_sublist _).map Prod.fst
  have h2 : ((projectileUpdate projectiles t dt).1).map Prod.fst =
      projectiles.map Prod.fst := by
    rw [projectileUpdate]
    rw [List.map_map]
    rfl
  rw [h2] at h1
  exact h1

theorem runProjectileTicks_keys_nodup (projectiles : Projectiles) (startTick : ℤ)
    (dt : ℚ) (n : ℕ) (hnodup : (projectiles.map Prod.fst).Nodup) :
    ((runProjectileTicks projectiles startTick dt n).map Prod.fst).Nodup := by
  induction n with
  | zero => exact hnodup
  | succ n ih =>
    exact List.Sublist.nodup (projectileStep_keys_sublist _ _ _) ih

/-- A projectile that never collides nor leaves bounds during its first `L`
moves survives the first `n ≤ L` ticks after creation, moving each tick. -/
theorem runTicks_keeps_live (ps : Projectiles) (id : String) (pr : ProjectileState)
    (T : ℤ) (L : ℕ) (dt : ℚ)
    (hmem : (id, pr) ∈ ps) (hT : pr.createdAt = T) (hL : pr.lifetime = L)
    (hsafe : ∀ k : ℕ, k ≤ L →
      ¬ projectileHitsArena (moveProjectileN dt k pr) ∧
      ¬ projectileOutOfBounds (moveProjectileN dt k pr)) :
    ∀ n : ℕ, n ≤ L → (id, moveProjectileN dt n pr) ∈ runProjectileTicks ps T dt n := by
  intro n
  induction n with
  | zero => intro _; exact hmem
  | succ n ih =>
    intro hn1
    have hmem' := ih (Nat.le_of_succ_le hn1)
    rw [runProjectileTicks, projectileStep]
    apply List.mem_filter.mpr
    refine ⟨?_, ?_⟩
    · rw [projectileUpdate]
      exact List.mem_map.mpr ⟨(id, moveProjectileN dt n pr), hmem', rfl⟩
    · have hsafe1 := hsafe (n + 1) hn1
      have hage : ¬ ((moveProjectileN dt (n + 1) pr).lifetime : ℤ) ≤
          (T + (n : ℤ)) - (moveProjectileN dt (n + 1) pr).createdAt := by
        rw [moveProjectileN_lifetime, moveProjectileN_createdAt, hT, hL]
        rw [show (T + (n : ℤ)) - T = (n : ℤ) by ring]
        exact_mod_cast Nat.not_le.mpr (Nat.lt_of_succ_le hn1)
      simp only [Bool.not_eq_true', decide_eq_false_iff_not, projectileExpired]
      push_neg
      exact ⟨hsafe1.1, not_le.mp hage, hsafe1.2⟩

/-- **C6.** For every projectile created at tick `T` with lifetime `L`
ticks that is not removed by arena collision, out-of-bounds distance, or a
player hit, repeated application of `ProjectileSystem.update` (with the
game loop deleting the reported expired ids) keeps the projectile in the
projectile map through tick `T + L - 1`, and at tick `T + L` marks it
expired — the update reports its id — so it is removed from the map.  (The
claim's `createdAt`/`lifetime` quantification covers every projectile
`ProjectileSystem.createProjectile` produces.) -/
theorem projectile_lifetime_exact (ps : Projectiles) (id : String)
    (pr : ProjectileState) (T : ℤ) (L : ℕ) (dt : ℚ)
    (hmem : (id, pr) ∈ ps) (hT : pr.createdAt = T) (hL : pr.lifetime = L)
    (hnodup : (ps.map Prod.fst).Nodup)
    (hsafe : ∀ k : ℕ, k ≤ L →
      ¬ projectileHitsArena (moveProjectileN dt k pr) ∧
      ¬ projectileOutOfBounds (moveProjectileN dt k pr)) :
    (∀ n : ℕ, n ≤ L → (id, moveProjectileN dt n pr) ∈ runProjectileTicks ps T dt n) ∧
    id ∈ (projectileUpdate (runProjectileTicks ps T dt L) (T + (L : ℤ)) dt).2 ∧
    ∀ e ∈ projectileStep (runProjectileTicks ps T dt L) (T + (L : ℤ)) dt, e.1 ≠ id := by
  have hkeep := runTicks_keeps_live ps id pr T L dt hmem hT hL hsafe
  have hpresL : (id, moveProjectileN dt L pr) ∈ runProjectileTicks ps T dt L :=
    hkeep L (le_refl L)
  have hmoved : (id, moveProjectileN dt (L + 1) pr) ∈
      (projectileUpdate (runProjectileTicks ps T dt L) (T + (L : ℤ)) dt).1 := by
    rw [projectileUpdate]
    exact List.mem_map.mpr ⟨(id, moveProjectileN dt L pr), hpresL, rfl⟩
  have hexp : projectileExpired (T + (L : ℤ)) (moveProjectileN dt (L + 1) pr) := by
    refine Or.inr (Or.inl ?_)
    rw [moveProjectileN_lifetime, moveProjectileN_createdAt, hT, hL]
    rw [show (T + (L : ℤ)) - T = (L : ℤ) by ring]
  refine ⟨hkeep, ?_, ?_⟩
  · rw [projectileUpdate]
    refine List.mem_map.mpr ⟨(id, moveProjectileN dt (L + 1) pr), ?_, rfl⟩
    refine List.mem_filter.mpr ⟨?_, by simpa using hexp⟩
    exact List.mem_map.mpr ⟨(id, moveProjectileN dt L pr), hpresL, rfl⟩
  · intro e he hne
    rw [projectileStep] at he
    have hef := List.mem_filter.mp he
    have hnotexp : ¬ projectileExpired (T + (L : ℤ)) e.2 := by
      have := hef.2
      simpa [Bool.not_eq_true', decide_eq_false_iff_not] using this
    rw [projectileUpdate] at hef
    rcases List.mem_map.mp hef.1 with ⟨e0, he0, heq⟩
    have he01 : e0.1 = id := by rw [← heq] at hne; exact hne
    have hrunnodup : ((runProjectileTicks ps T dt L).map Prod.fst).Nodup :=
      runProjectileTicks_keys_nodup ps T dt L hnodup
    have he0mem : (id, e0.2) ∈ runProjectileTicks ps T dt L := by
      rw [← he01]; exact he0
    have he02 : e0.2 = moveProjectileN dt L pr :=
      entry_eq_of_nodup_keys hrunnodup he0mem hpresL
    apply hnotexp
    rw [← heq, he02]
    exact hexp

/-- Witness projectile for C6: hovering at (0, 20, 0) with zero velocity,
created at tick 10 with lifetime 2, fireball radius 0.3. -/
def projDemo : ProjectileState :=
  { id := "p", ownerId := "A", position := ⟨0, 20, 0⟩, velocity := ⟨0, 0, 0⟩,
    createdAt := 10, lifetime := 2, damage := 25, radius := 3/10 }

/-- Witness projectile map. -/
def projDemoMap : Projectiles := [("p", projDemo)]

theorem projDemo_move_fixed : moveProjectile (1/60) projDemo = projDemo := by
  norm_num [moveProjectile, projDemo]

theorem projDemo_moveN_fixed (k : ℕ) : moveProjectileN (1/60) k projDemo = projDemo := by
  induction k with
  | zero => rfl
  | succ k ih => rw [moveProjectileN, ih, projDemo_move_fixed]

set_option maxHeartbeats 1000000 in
theorem projDemo_safe :
    ¬ projectileHitsArena projDemo ∧ ¬ projectileOutOfBounds projDemo := by
  constructor
  · norm_num [projDemo, projectileHitsArena, arenaWalls, arenaPlatforms, arenaCylinders,
      createAABB, createCylinder, sphereOverlapsAABB, sphereOverlapsCylinder,
      min_def, max_def]
  · norm_num [projDemo, projectileOutOfBounds]

/-- Witness for C6: the demo projectile (lifetime 2, created at tick 10)
is still present after the updates at ticks 10 and 11, and the update at
tick 12 reports it expired and removes it. -/
theorem projectile_lifetime_exact_witness :
    (("p", projDemo) ∈ projDemoMap) ∧ (projDemoMap.map Prod.fst).Nodup ∧
    ((∀ n : ℕ, n ≤ 2 →
        ("p", moveProjectileN (1/60) n projDemo) ∈ runProjectileTicks projDemoMap 10 (1/60) n) ∧
      "p" ∈ (projectileUpdate (runProjectileTicks projDemoMap 10 (1/60) 2)
        (10 + ((2 : ℕ) : ℤ)) (1/60)).2 ∧
      ∀ e ∈ projectileStep (runProjectileTicks projDemoMap 10 (1/60) 2)
        (10 + ((2 : ℕ) : ℤ)) (1/60), e.1 ≠ "p") := by
  refine ⟨List.mem_cons_self _ _, by simp [projDemoMap], ?_⟩
  refine projectile_lifetime_exact projDemoMap "p" projDemo 10 2 (1/60)
    (List.mem_cons_self _ _) rfl rfl (by simp [projDemoMap]) ?_
  intro k hk
  rw [projDemo_moveN_fixed]
  exact projDemo_safe

/-! ## Real-valued systems

`ArcaneRaySystem`, `PhysicsSystem.applyDash`, `ArenaCollisionSystem` and
`CollisionSystem.resolvePlayerPairCollision` call `Math.sqrt` and
trigonometry, so they are embedded over `ℝ`. -/

/-- `PHYSICS.PLAYER_RADIUS = 0.4` from `constants/physics.ts`. -/
noncomputable def PLAYER_RADIUS : ℝ := 2 / 5

/-- `PHYSICS.PLAYER_HEIGHT = 1.8` from `constants/physics.ts`. -/
noncomputable def PLAYER_HEIGHT : ℝ := 9 / 5

/-- `ABILITIES.ARCANE_RAY.COOLDOWN_MS`. -/
def ARCANE_RAY_COOLDOWN_MS : ℚ := 6000

/-- `ABILITIES.ARCANE_RAY.DAMAGE`. -/
noncomputable def ARCANE_RAY_DAMAGE : ℝ := 35

/-- `ABILITIES.ARCANE_RAY.RANGE` (visual display range only). -/
noncomputable def ARCANE_RAY_RANGE : ℝ := 200

/-- `getDirectionFromLook` from `abilityUtils.ts`:
`(-sin yaw * cos pitch, sin pitch, -cos yaw * cos pitch)`. -/
noncomputable def getDirectionFromLook (yaw pitch : ℝ) : Vec3 ℝ :=
  ⟨-Real.sin yaw * Real.cos pitch, Real.sin pitch, -Real.cos yaw * Real.cos pitch⟩

/-- `ArcaneRayResult` from `ArcaneRaySystem.ts`. -/
structure ArcaneRayResult where
  origin : Vec3 ℝ
  endpoint : Vec3 ℝ
  hitPlayerId : Option String
  damage : ℝ

/-- `ArcaneRaySystem.checkCylinderCaps`: ray versus the top/bottom caps;
closest strictly positive cap hit, if any. -/
noncomputable def checkCylinderCaps (origin direction : Vec3 ℝ)
    (centerX centerZ bottomY topY radius : ℝ) : Option ℝ :=
  if 1/10000 < |direction.y| then
    let tBottom := (bottomY - origin.y) / direction.y
    let hitBX := origin.x + tBottom * direction.x
    let hitBZ := origin.z + tBottom * direction.z
    let tTop := (topY - origin.y) / direction.y
    let hitTX := origin.x + tTop * direction.x
    let hitTZ := origin.z + tTop * direction.z
    if 0 < tBottom ∧
        (hitBX - centerX) ^ 2 + (hitBZ - centerZ) ^ 2 ≤ radius * radius then
      if 0 < tTop ∧
          (hitTX - centerX) ^ 2 + (hitTZ - centerZ) ^ 2 ≤ radius * radius then
        if tTop < tBottom then some tTop else some tBottom
      else some tBottom
    else
      if 0 < tTop ∧
          (hitTX - centerX) ^ 2 + (hitTZ - centerZ) ^ 2 ≤ radius * radius then
        some tTop
      else none
  else none

/-- `ArcaneRaySystem.rayIntersectsPlayer`: ray versus the player's cylinder
(quadratic solve in the XZ plane; near-vertical rays via the cap planes;
cap intersections checked separately).  Returns the hit distance. -/
noncomputable def rayIntersectsPlayer (origin direction : Vec3 ℝ)
    (player : PlayerState ℝ) : Option ℝ :=
  let playerRadius := PLAYER_RADIUS
  let playerHeight := PLAYER_HEIGHT
  let cylinderBottomY := player.position.y - playerHeight / 2
  let cylinderTopY := player.position.y + playerHeight / 2
  let cylinderCenterX := player.position.x
  let cylinderCenterZ := player.position.z
  let dx := origin.x - cylinderCenterX
  let dz := origin.z - cylinderCenterZ
  let a := direction.x * direction.x + direction.z * direction.z
  let b := 2 * (dx * direction.x + dz * direction.z)
  let c := dx * dx + dz * dz - playerRadius * playerRadius
  if |a| < 1/10000 then
    if 0 < c then none
    else if |direction.y| < 1/10000 then none
    else
      let tBottom := (cylinderBottomY - origin.y) / direction.y
      let tTop := (cylinderTopY - origin.y) / direction.y
      let tNear := min tBottom tTop
      let tFar := max tBottom tTop
      if tFar < 0 then none
      else if 0 < tNear then some tNear else some tFar
  else
    let discriminant := b * b - 4 * a * c
    if discriminant < 0 then none
    else
      let sqrtDiscriminant := Real.sqrt discriminant
      let t1 := (-b - sqrtDiscriminant) / (2 * a)
      let t2 := (-b + sqrtDiscriminant) / (2 * a)
      let tNear := min t1 t2
      let tFar := max t1 t2
      if 0 ≤ tNear ∧ cylinderBottomY ≤ origin.y + tNear * direction.y ∧
          origin.y + tNear * direction.y ≤ cylinderTopY then some tNear
      else if 0 ≤ tFar ∧ cylinderBottomY ≤ origin.y + tFar * direction.y ∧
          origin.y + tFar * direction.y ≤ cylinderTopY then some tFar
      else
        checkCylinderCaps origin direction cylinderCenterX cylinderCenterZ
          cylinderBottomY cylinderTopY playerRadius

/-- The loop body of `ArcaneRaySystem.findClosestHit`: skip the caster and
dead players; keep the strictly closer hit. -/
noncomputable def rayFoldStep (origin direction : Vec3 ℝ) (casterId : String)
    (closestHit : Option (String × ℝ)) (e : String × PlayerState ℝ) :
    Option (String × ℝ) :=
  if e.1 = casterId then closestHit
  else if e.2.isAlive = false then closestHit
  else
    match rayIntersectsPlayer origin direction e.2 with
    | none => closestHit
    | some hitDistance =>
      match closestHit with
      | none => some (e.1, hitDistance)
      | some c => if hitDistance < c.2 then some (e.1, hitDistance) else closestHit

/-- `ArcaneRaySystem.findClosestHit` (no max range — infinite). -/
noncomputable def findClosestHit (origin direction : Vec3 ℝ) (casterId : String)
    (players : Players ℝ) : Option (String × ℝ) :=
  players.foldl (rayFoldStep origin direction casterId) none

/-- `recordAbilityUse` applied by `fireArcaneRay` to the arcane-ray slot. -/
def recordArcaneRayUse (caster : PlayerState ℝ) (currentTick : ℤ) : PlayerState ℝ :=
  { caster with abilities := { caster.abilities with
      arcaneRay := ⟨false, ARCANE_RAY_COOLDOWN_MS, currentTick⟩ } }

/-- `ArcaneRaySystem.canFire`. -/
def arcaneCanFire (caster : PlayerState ℝ) (currentTick : ℤ) : Prop :=
  cooldownMsToTicks ARCANE_RAY_COOLDOWN_MS ≤
    currentTick - caster.abilities.arcaneRay.lastUsed

instance (caster : PlayerState ℝ) (currentTick : ℤ) :
    Decidable (arcaneCanFire caster currentTick) := by
  unfold arcaneCanFire; infer_instance

/-- The ray origin of `fireArcaneRay` (caster eye level). -/
noncomputable def rayOrigin (caster : PlayerState ℝ) : Vec3 ℝ :=
  ⟨caster.position.x, caster.position.y + PLAYER_HEIGHT / 2, caster.position.z⟩

/-- The ray direction of `fireArcaneRay`:
`getDirectionFromLook(caster.yaw, caster.pitch)`. -/
noncomputable def rayDir (caster : PlayerState ℝ) : Vec3 ℝ :=
  getDirectionFromLook caster.yaw caster.pitch

/-- A point of the caster's ray: origin plus direction scaled by `d`
(the endpoint construction of `fireArcaneRay`). -/
noncomputable def rayPoint (caster : PlayerState ℝ) (d : ℝ) : Vec3 ℝ :=
  ⟨(rayOrigin caster).x + (rayDir caster).x * d,
    (rayOrigin caster).y + (rayDir caster).y * d,
    (rayOrigin caster).z + (rayDir caster).z * d⟩

/-- `ArcaneRaySystem.fireArcaneRay` from `ArcaneRaySystem.ts`: cooldown
gate, record usage, find the closest hit; the endpoint is the origin plus
the direction scaled by the hit distance, or by the fixed display range on
a miss.  Returned alongside the mutated caster. -/
noncomputable def fireArcaneRay (caster : PlayerState ℝ) (players : Players ℝ)
    (currentTick : ℤ) : PlayerState ℝ × Option ArcaneRayResult :=
  if ¬ arcaneCanFire caster currentTick then (caster, none)
  else
    let caster' := recordArcaneRayUse caster currentTick
    let origin := rayOrigin caster
    let direction := rayDir caster
    match findClosestHit origin direction caster.id players with
    | some hit =>
      (caster', some ⟨origin, rayPoint caster hit.2, some hit.1, ARCANE_RAY_DAMAGE⟩)
    | none =>
      (caster', some ⟨origin, rayPoint caster ARCANE_RAY_RANGE, none, ARCANE_RAY_DAMAGE⟩)

/-- Every cap hit `checkCylinderCaps` reports is at strictly positive ray
parameter. -/
theorem checkCylinderCaps_pos {origin direction : Vec3 ℝ} {cx cz yb yt r t : ℝ}
    (h : checkCylinderCaps origin direction cx cz yb yt r = some t) : 0 < t := by
  simp only [checkCylinderCaps] at h
  split_ifs at h with hA hB hC hD hC2
  · rw [Option.some_inj] at h; subst h; exact hC.1
  · rw [Option.some_inj] at h; subst h; exact hB.1
  · rw [Option.some_inj] at h; subst h; exact hB.1
  · rw [Option.some_inj] at h; subst h; exact hC2.1

/-- Every intersection distance `rayIntersectsPlayer` reports is
nonnegative: targets behind the caster (negative ray parameter) are never
hit. -/
theorem rayIntersectsPlayer_nonneg {origin direction : Vec3 ℝ}
    {player : PlayerState ℝ} {t : ℝ}
    (h : rayIntersectsPlayer origin direction player = some t) : 0 ≤ t := by
  simp only [rayIntersectsPlayer] at h
  split_ifs at h with hA hC hD hFar hNear hDisc hq1 hq2
  · rw [Option.some_inj] at h; subst h; exact le_of_lt hNear
  · rw [Option.some_inj] at h; subst h; exact not_lt.mp hFar
  · rw [Option.some_inj] at h; subst h; exact hq1.1
  · rw [Option.some_inj] at h; subst h; exact hq2.1
  · exact le_of_lt (checkCylinderCaps_pos h)

/-- An eligible ray hit among the map's entries: an alive non-caster player
whose cylinder the ray intersects at distance `t`. -/
def RayHitCand (origin direction : Vec3 ℝ) (casterId : String) (players : Players ℝ)
    (pid : String) (t : ℝ) : Prop :=
  ∃ p, (pid, p) ∈ players ∧ pid ≠ casterId ∧ p.isAlive = true ∧
    rayIntersectsPlayer origin direction p = some t

theorem rayHitCand_cons_of_rest {origin direction : Vec3 ℝ} {casterId : String}
    {e : String × PlayerState ℝ} {rest : Players ℝ} {pid : String} {t : ℝ}
    (h : RayHitCand origin direction casterId rest pid t) :
    RayHitCand origin direction casterId (e :: rest) pid t := by
  obtain ⟨p, hp, hne, hal, hray⟩ := h
  exact ⟨p, List.mem_cons_of_mem _ hp, hne, hal, hray⟩

/-- Invariant of the `findClosestHit` fold: starting from any accumulator,
the fold returns `none` only when the accumulator was empty and the list
holds no eligible hit, and a returned hit is an eligible hit (or the
accumulator) of minimal distance among list candidates and accumulator. -/
theorem rayFold_spec (origin direction : Vec3 ℝ) (casterId : String) :
    ∀ (l : Players ℝ) (acc : Option (String × ℝ)),
      (l.foldl (rayFoldStep origin direction casterId) acc = none →
        acc = none ∧ ∀ pid t, ¬ RayHitCand origin direction casterId l pid t) ∧
      (∀ pid t, l.foldl (rayFoldStep origin direction casterId) acc = some (pid, t) →
        (RayHitCand origin direction casterId l pid t ∨ acc = some (pid, t)) ∧
        (∀ pid' t', RayHitCand origin direction casterId l pid' t' → t ≤ t') ∧
        (∀ q, acc = some q → t ≤ q.2)) := by
  intro l
  induction l with
  | nil =>
    intro acc
    refine ⟨?_, ?_⟩
    · intro h
      refine ⟨h, ?_⟩
      rintro pid t ⟨p, hp, _⟩
      simp at hp
    · intro pid t h
      refine ⟨Or.inr h, ?_, ?_⟩
      · rintro pid' t' ⟨p, hp, _⟩
        simp at hp
      · intro q hq
        rw [List.foldl_nil] at h
        rw [h] at hq
        cases Option.some_inj.mp hq
        exact le_refl t
  | cons e rest ih =>
    intro acc
    rw [List.foldl_cons]
    by_cases hid : e.1 = casterId
    · -- skip: the caster's own entry
      have hstep : rayFoldStep origin direction casterId acc e = acc := by
        rw [rayFoldStep, if_pos hid]
      rw [hstep]
      have hdrop : ∀ pid t, RayHitCand origin direction casterId (e :: rest) pid t →
          RayHitCand origin direction casterId rest pid t := by
        rintro pid t ⟨p, hp, hne, hal, hray⟩
        rcases List.mem_cons.mp hp with hh | ht
        · exact absurd (by rw [← hid]; exact congrArg Prod.fst hh) hne
        · exact ⟨p, ht, hne, hal, hray⟩
      refine ⟨?_, ?_⟩
      · intro h
        obtain ⟨ha, hnc⟩ := (ih acc).1 h
        exact ⟨ha, fun pid t hc => hnc pid t (hdrop pid t hc)⟩
      · intro pid t h
        obtain ⟨h1, h2, h3⟩ := (ih acc).2 pid t h
        refine ⟨?_, fun pid' t' hc => h2 pid' t' (hdrop pid' t' hc), h3⟩
        rcases h1 with hc | ha
        · exact Or.inl (rayHitCand_cons_of_rest hc)
        · exact Or.inr ha
    · by_cases hdead : e.2.isAlive = false
      · -- skip: dead player
        have hstep : rayFoldStep origin direction casterId acc e = acc := by
          rw [rayFoldStep, if_neg hid, if_pos hdead]
        rw [hstep]
        have hdrop : ∀ pid t, RayHitCand origin direction casterId (e :: rest) pid t →
            RayHitCand origin direction casterId rest pid t := by
          rintro pid t ⟨p, hp, hne, hal, hray⟩
          rcases List.mem_cons.mp hp with hh | ht
          · exfalso
            have hp2 : p = e.2 := congrArg Prod.snd hh
            rw [hp2, hdead] at hal
            exact Bool.noConfusion hal
          · exact ⟨p, ht, hne, hal, hray⟩
        refine ⟨?_, ?_⟩
        · intro h
          obtain ⟨ha, hnc⟩ := (ih acc).1 h
          exact ⟨ha, fun pid t hc => hnc pid t (hdrop pid t hc)⟩
        · intro pid t h
          obtain ⟨h1, h2, h3⟩ := (ih acc).2 pid t h
          refine ⟨?_, fun pid' t' hc => h2 pid' t' (hdrop pid' t' hc), h3⟩
          rcases h1 with hc | ha
          · exact Or.inl (rayHitCand_cons_of_rest hc)
          · exact Or.inr ha
      · cases hray : rayIntersectsPlayer origin direction e.2 with
        | none =>
          -- skip: no intersection with this player
          have hstep : rayFoldStep origin direction casterId acc e = acc := by
            rw [rayFoldStep, if_neg hid, if_neg hdead, hray]
          rw [hstep]
          have hdrop : ∀ pid t, RayHitCand origin direction casterId (e :: rest) pid t →
              RayHitCand origin direction casterId rest pid t := by
            rintro pid t ⟨p, hp, hne, hal, hr⟩
            rcases List.mem_cons.mp hp with hh | ht
            · exfalso
              have : p = e.2 := congrArg Prod.snd hh
              rw [this, hray] at hr
              exact Option.noConfusion hr
            · exact ⟨p, ht, hne, hal, hr⟩
          refine ⟨?_, ?_⟩
          · intro h
            obtain ⟨ha, hnc⟩ := (ih acc).1 h
            exact ⟨ha, fun pid t hc => hnc pid t (hdrop pid t hc)⟩
          · intro pid t h
            obtain ⟨h1, h2, h3⟩ := (ih acc).2 pid t h
            refine ⟨?_, fun pid' t' hc => h2 pid' t' (hdrop pid' t' hc), h3⟩
            rcases h1 with hc | ha
            · exact Or.inl (rayHitCand_cons_of_rest hc)
            · exact Or.inr ha
        | some t0 =>
          -- the head is an eligible hit at distance t0
          have hheadcand : RayHitCand origin direction casterId (e :: rest) e.1 t0 :=
            ⟨e.2, List.mem_cons_self _ _, hid, by simpa using hdead, hray⟩
          have hheadonly : ∀ pid t, RayHitCand origin direction casterId (e :: rest) pid t →
              (pid = e.1 ∧ t = t0) ∨ RayHitCand origin direction casterId rest pid t := by
            rintro pid t ⟨p, hp, hne, hal, hr⟩
            rcases List.mem_cons.mp hp with hh | ht
            · left
              have hp2 : p = e.2 := congrArg Prod.snd hh
              rw [hp2, hray] at hr
              exact ⟨congrArg Prod.fst hh, (Option.some_inj.mp hr).symm⟩
            · exact Or.inr ⟨p, ht, hne, hal, hr⟩
          cases hacc : acc with
          | none =>
            have hstep : rayFoldStep origin direction casterId none e = some (e.1, t0) := by
              rw [rayFoldStep, if_neg hid, if_neg hdead, hray]
            rw [hstep]
            refine ⟨?_, ?_⟩
            · intro h
              obtain ⟨ha, _⟩ := (ih (some (e.1, t0))).1 h
              exact Option.noConfusion ha
            · intro pid t h
              obtain ⟨h1, h2, h3⟩ := (ih (some (e.1, t0))).2 pid t h
              have htle : t ≤ t0 := h3 (e.1, t0) rfl
              refine ⟨?_, ?_, ?_⟩
              · rcases h1 with hc | hacc'
                · exact Or.inl (rayHitCand_cons_of_rest hc)
                · cases Option.some_inj.mp hacc'
                  exact Or.inl hheadcand
              · intro pid' t' hc
                rcases hheadonly pid' t' hc with ⟨_, ht0⟩ | hcr
                · rw [ht0]; exact htle
                · exact h2 pid' t' hcr
              · intro q hq
                exact Option.noConfusion hq
          | some c =>
            by_cases hcl : t0 < c.2
            · have hstep : rayFoldStep origin direction casterId (some c) e = some (e.1, t0) := by
                rw [rayFoldStep, if_neg hid, if_neg hdead, hray]
                dsimp only
                rw [if_pos hcl]
              rw [hstep]
              refine ⟨?_, ?_⟩
              · intro h
                obtain ⟨ha, _⟩ := (ih (some (e.1, t0))).1 h
                exact Option.noConfusion ha
              · intro pid t h
                obtain ⟨h1, h2, h3⟩ := (ih (some (e.1, t0))).2 pid t h
                have htle : t ≤ t0 := h3 (e.1, t0) rfl
                refine ⟨?_, ?_, ?_⟩
                · rcases h1 with hc | hacc'
                  · exact Or.inl (rayHitCand_cons_of_rest hc)
                  · cases Option.some_inj.mp hacc'
                    exact Or.inl hheadcand
                · intro pid' t' hc
                  rcases hheadonly pid' t' hc with ⟨_, ht0⟩ | hcr
                  · rw [ht0]; exact htle
                  · exact h2 pid' t' hcr
                · intro q hq
                  cases Option.some_inj.mp hq
                  exact le_trans htle (le_of_lt hcl)
            · have hstep : rayFoldStep origin direction casterId (some c) e = some c := by
                rw [rayFoldStep, if_neg hid, if_neg hdead, hray]
                dsimp only
                rw [if_neg hcl]
              rw [hstep]
              refine ⟨?_, ?_⟩
              · intro h
                obtain ⟨ha, _⟩ := (ih (some c)).1 h
                exact Option.noConfusion ha
              · intro pid t h
                obtain ⟨h1, h2, h3⟩ := (ih (some c)).2 pid t h
                have htc : t ≤ c.2 := h3 c rfl
                refine ⟨?_, ?_, ?_⟩
                · rcases h1 with hc2 | hacc'
                  · exact Or.inl (rayHitCand_cons_of_rest hc2)
                  · exact Or.inr hacc'
                · intro pid' t' hc2
                  rcases hheadonly pid' t' hc2 with ⟨_, ht0⟩ | hcr
                  · rw [ht0]; exact le_trans htc (not_lt.mp hcl)
                  · exact h2 pid' t' hcr
                · intro q hq
                  cases Option.some_inj.mp hq
                  exact htc

/-- **C5 (amended).** For every caster whose ray ability is off cooldown
and every player map, `ArcaneRaySystem.fireArcaneRay` selects as hit the
alive non-caster player whose cylinder intersection distance along the ray
is the smallest *nonnegative* reported distance (never the farther of two
colinear targets, never the caster, and never a target behind the caster —
every reported distance is nonnegative, negative ray parameters are
skipped); if no player is hit, the returned endpoint is the ray origin
plus the direction scaled by the fixed maximum display range.  (Amended
from "strictly-positive": the code accepts a grazing intersection at ray
parameter exactly 0, see the counterexample.) -/
theorem fireArcaneRay_selects_closest (caster : PlayerState ℝ) (players : Players ℝ)
    (currentTick : ℤ) (hready : arcaneCanFire caster currentTick) :
    ∃ res, fireArcaneRay caster players currentTick =
        (recordArcaneRayUse caster currentTick, some res) ∧
      ((res.hitPlayerId = none ∧
          (∀ pid p, (pid, p) ∈ players → pid ≠ caster.id → p.isAlive = true →
            rayIntersectsPlayer (rayOrigin caster) (rayDir caster) p = none) ∧
          res.endpoint = rayPoint caster ARCANE_RAY_RANGE) ∨
        (∃ pid t p, res.hitPlayerId = some pid ∧ (pid, p) ∈ players ∧
          pid ≠ caster.id ∧ p.isAlive = true ∧
          rayIntersectsPlayer (rayOrigin caster) (rayDir caster) p = some t ∧
          0 ≤ t ∧
          (∀ pid' p' t', (pid', p') ∈ players → pid' ≠ caster.id →
            p'.isAlive = true →
            rayIntersectsPlayer (rayOrigin caster) (rayDir caster) p' = some t' →
            t ≤ t') ∧
          res.endpoint = rayPoint caster t)) := by
  rw [fireArcaneRay, if_neg (by simpa using hready)]
  dsimp only
  cases hfind : findClosestHit (rayOrigin caster) (rayDir caster) caster.id players with
  | none =>
    refine ⟨_, rfl, Or.inl ⟨rfl, ?_, rfl⟩⟩
    intro pid p hmem hne halive
    cases hr : rayIntersectsPlayer (rayOrigin caster) (rayDir caster) p with
    | none => rfl
    | some t =>
      exfalso
      rw [findClosestHit] at hfind
      have hnc :=
        ((rayFold_spec (rayOrigin caster) (rayDir caster) caster.id players none).1 hfind).2
      exact hnc pid t ⟨p, hmem, hne, halive, hr⟩
  | some hit =>
    obtain ⟨pid0, t00⟩ := hit
    rw [findClosestHit] at hfind
    obtain ⟨h1, h2, _⟩ :=
      ((rayFold_spec (rayOrigin caster) (rayDir caster) caster.id players none).2 pid0 t00) hfind
    rcases h1 with hcand | habs
    · obtain ⟨p, hmem, hne, halive, hray⟩ := hcand
      refine ⟨_, rfl, Or.inr ⟨pid0, t00, p, rfl, hmem, hne, halive, hray,
        rayIntersectsPlayer_nonneg hray, ?_, rfl⟩⟩
      intro pid' p' t' hmem' hne' halive' hr'
      exact h2 pid' t' ⟨p', hmem', hne', halive', hr'⟩
    · exact Option.noConfusion habs

/-- A generic alive player at the real carrier, used by the ray scenarios:
the victim standing so that its cylinder surface passes exactly through the
caster's eye position. -/
noncomputable def rayVictimB : PlayerState ℝ :=
  { id := "B", name := "Bob", position := ⟨0, 9/5, 2/5⟩, velocity := ⟨0, 0, 0⟩,
    yaw := 0, pitch := 0, health := 100, maxHealth := 100, isAlive := true,
    isGrounded := true, abilities := createDefaultAbilityState,
    lastProcessedInput := 0, lastDamageTick := 0 }

/-- The ray caster standing on the floor at the origin, looking straight
ahead (yaw 0, pitch 0, direction `(0, 0, -1)`), abilities fresh. -/
noncomputable def rayCasterCex : PlayerState ℝ :=
  { id := "A", name := "Alice", position := ⟨0, 9/10, 0⟩, velocity := ⟨0, 0, 0⟩,
    yaw := 0, pitch := 0, health := 100, maxHealth := 100, isAlive := true,
    isGrounded := true, abilities := createDefaultAbilityState,
    lastProcessedInput := 0, lastDamageTick := 0 }

/-- Counterexample map: the caster and the grazing victim, which sits at
`z = +0.4`, *behind* the `(0, 0, -1)` ray, touching the eye position. -/
noncomputable def rayCexPlayers : Players ℝ := [("A", rayCasterCex), ("B", rayVictimB)]

/-- `cooldownMsToTicks` of the arcane-ray cooldown is 360 ticks. -/
theorem arcaneCooldownTicks_eq : cooldownMsToTicks ARCANE_RAY_COOLDOWN_MS = 360 := by
  norm_num [cooldownMsToTicks, ARCANE_RAY_COOLDOWN_MS]

set_option maxHeartbeats 1000000 in
/-- **C5 counterexample.** The claim says the selected hit has the smallest
*strictly-positive* intersection distance.  Here the only intersection the
code reports for the victim is at ray parameter exactly `0` (the victim's
cylinder grazes the ray origin, squarely behind the ray direction), yet
`fireArcaneRay` selects it as the hit and the endpoint collapses to the
origin — under the claim no player should be hit and the endpoint should
extend to the display range. -/
theorem arcaneRay_zero_distance_cex :
    (fireArcaneRay rayCasterCex rayCexPlayers 1).2 =
      some ⟨⟨0, 9/5, 0⟩, ⟨0, 9/5, 0⟩, some "B", ARCANE_RAY_DAMAGE⟩ ∧
    rayIntersectsPlayer (rayOrigin rayCasterCex) (rayDir rayCasterCex) rayVictimB = some 0 := by
  have hready : arcaneCanFire rayCasterCex 1 := by
    rw [arcaneCanFire, arcaneCooldownTicks_eq]
    norm_num [rayCasterCex, createDefaultAbilityState, NEVER_USED]
  have horig : rayOrigin rayCasterCex = ⟨0, 9/5, 0⟩ := by
    rw [rayOrigin]
    norm_num [rayCasterCex, PLAYER_HEIGHT]
  have hdir : rayDir rayCasterCex = ⟨0, 0, -1⟩ := by
    rw [rayDir, getDirectionFromLook]
    norm_num [rayCasterCex]
  have h16 : Real.sqrt (16:ℝ) = 4 := by
    rw [show (16:ℝ) = 4^2 by norm_num]; exact Real.sqrt_sq (by norm_num)
  have h25 : Real.sqrt (25:ℝ) = 5 := by
    rw [show (25:ℝ) = 5^2 by norm_num]; exact Real.sqrt_sq (by norm_num)
  have hray : rayIntersectsPlayer (⟨0, 9/5, 0⟩ : Vec3 ℝ) ⟨0, 0, -1⟩ rayVictimB = some 0 := by
    norm_num [rayIntersectsPlayer, rayVictimB, PLAYER_RADIUS, PLAYER_HEIGHT, h16, h25]
  have hfind : findClosestHit ⟨0, 9/5, 0⟩ ⟨0, 0, -1⟩ "A" rayCexPlayers = some ("B", 0) := by
    rw [findClosestHit, show rayCexPlayers = [("A", rayCasterCex), ("B", rayVictimB)] from rfl,
      List.foldl_cons, rayFoldStep, if_pos rfl, List.foldl_cons, List.foldl_nil, rayFoldStep,
      if_neg (by decide), if_neg (by norm_num [rayVictimB]), hray]
  refine ⟨?_, by rw [horig, hdir]; exact hray⟩
  rw [fireArcaneRay, if_neg (by simpa using hready)]
  dsimp only
  rw [show rayCasterCex.id = "A" from rfl, horig, hdir, hfind]
  dsimp only
  rw [show rayPoint rayCasterCex 0 = ⟨0, 9/5, 0⟩ by
    rw [rayPoint, horig, hdir]; norm_num]

/-- Witness map for the amended C5: the caster plus two colinear targets
straight ahead at distances 5 and 10 along the look direction. -/
noncomputable def rayDemoPlayers : Players ℝ :=
  [("A", rayCasterCex),
   ("N", { rayVictimB with id := "N", position := ⟨0, 9/5, -5⟩ }),
   ("F", { rayVictimB with id := "F", position := ⟨0, 9/5, -10⟩ })]

/-- Witness for C5: the fresh caster is off cooldown at tick 1 and the
theorem instantiates on the two-colinear-target map. -/
theorem fireArcaneRay_selects_closest_witness :
    arcaneCanFire rayCasterCex 1 ∧
    (∃ res, fireArcaneRay rayCasterCex rayDemoPlayers 1 =
        (recordArcaneRayUse rayCasterCex 1, some res) ∧
      ((res.hitPlayerId = none ∧
          (∀ pid p, (pid, p) ∈ rayDemoPlayers → pid ≠ rayCasterCex.id → p.isAlive = true →
            rayIntersectsPlayer (rayOrigin rayCasterCex) (rayDir rayCasterCex) p = none) ∧
          res.endpoint = rayPoint rayCasterCex ARCANE_RAY_RANGE) ∨
        (∃ pid t p, res.hitPlayerId = some pid ∧ (pid, p) ∈ rayDemoPlayers ∧
          pid ≠ rayCasterCex.id ∧ p.isAlive = true ∧
          rayIntersectsPlayer (rayOrigin rayCasterCex) (rayDir rayCasterCex) p = some t ∧
          0 ≤ t ∧
          (∀ pid' p' t', (pid', p') ∈ rayDemoPlayers → pid' ≠ rayCasterCex.id →
            p'.isAlive = true →
            rayIntersectsPlayer (rayOrigin rayCasterCex) (rayDir rayCasterCex) p' = some t' →
            t ≤ t') ∧
          res.endpoint = rayPoint rayCasterCex t))) := by
  have hready : arcaneCanFire rayCasterCex 1 := by
    rw [arcaneCanFire, arcaneCooldownTicks_eq]
    norm_num [rayCasterCex, createDefaultAbilityState, NEVER_USED]
  exact ⟨hready, fireArcaneRay_selects_closest rayCasterCex rayDemoPlayers 1 hready⟩

/-! ## PhysicsSystem (jump and dash) -/

/-- `PHYSICS.JUMP_VELOCITY = 10`. -/
noncomputable def JUMP_VELOCITY : ℝ := 10

/-- `ABILITIES.DASH.COOLDOWN_MS`. -/
def DASH_COOLDOWN_MS : ℚ := 3000

/-- `ABILITIES.DASH.DISTANCE`. -/
noncomputable def DASH_DISTANCE : ℝ := 8

/-- `ABILITIES.DASH.DURATION_MS`. -/
noncomputable def DASH_DURATION_MS : ℝ := 150

/-- `PhysicsSystem.applyJump`: set vertical velocity and leave the ground
if grounded, otherwise a `false` no-op. -/
noncomputable def applyJump (player : PlayerState ℝ) : PlayerState ℝ × Bool :=
  if player.isGrounded then
    ({ player with
        velocity := ⟨player.velocity.x, JUMP_VELOCITY, player.velocity.z⟩,
        isGrounded := false }, true)
  else (player, false)

/-- `PhysicsSystem.applyDash`: cooldown-gated burst in the movement (or,
when nearly stationary, facing) direction.  The cooldown check carries the
source's `lastUsed !== 0` sentinel: a last-use tick of `0` is treated as
never-used. -/
noncomputable def applyDash (player : PlayerState ℝ) (yaw : ℝ) (currentTick : ℤ) :
    PlayerState ℝ × Bool :=
  let cooldownTicks := cooldownMsToTicks DASH_COOLDOWN_MS
  let ticksSinceLastUse := currentTick - player.abilities.dash.lastUsed
  if ticksSinceLastUse < cooldownTicks ∧ player.abilities.dash.lastUsed ≠ 0 then
    (player, false)
  else
    let velMagnitude := Real.sqrt (player.velocity.x * player.velocity.x +
      player.velocity.z * player.velocity.z)
    let dashDir : ℝ × ℝ :=
      if 1/10 < velMagnitude then
        (player.velocity.x / velMagnitude, player.velocity.z / velMagnitude)
      else (-Real.sin yaw, -Real.cos yaw)
    let dashSpeed := DASH_DISTANCE / (DASH_DURATION_MS / 1000)
    ({ player with
        velocity := ⟨dashDir.1 * dashSpeed, player.velocity.y, dashDir.2 * dashSpeed⟩,
        abilities := { player.abilities with
          dash := ⟨false, DASH_COOLDOWN_MS, currentTick⟩ } }, true)

/-- `cooldownMsToTicks` of the dash cooldown is 180 ticks. -/
theorem dashCooldownTicks_eq : cooldownMsToTicks DASH_COOLDOWN_MS = 180 := by
  norm_num [cooldownMsToTicks, DASH_COOLDOWN_MS]

/-- **C8 (amended).** Stale or ignorable actions resolve as no-ops
returning a null or false result: an airborne player's jump returns
`false` and leaves the player unchanged; an on-cooldown dash returns
`false` and leaves the player unchanged *provided the dash's last-used
tick is nonzero* (the source treats `lastUsed === 0` as a never-used
sentinel and lets the dash through — see the counterexample); an
on-cooldown ray returns `null` and leaves the caster unchanged. -/
theorem stale_actions_are_noops :
    (∀ p : PlayerState ℝ, p.isGrounded = false → applyJump p = (p, false)) ∧
    (∀ (p : PlayerState ℝ) (yaw : ℝ) (t : ℤ),
      t - p.abilities.dash.lastUsed < cooldownMsToTicks DASH_COOLDOWN_MS →
      p.abilities.dash.lastUsed ≠ 0 →
      applyDash p yaw t = (p, false)) ∧
    (∀ (caster : PlayerState ℝ) (players : Players ℝ) (t : ℤ),
      t - caster.abilities.arcaneRay.lastUsed < cooldownMsToTicks ARCANE_RAY_COOLDOWN_MS →
      fireArcaneRay caster players t = (caster, none)) := by
  refine ⟨?_, ?_, ?_⟩
  · intro p h
    rw [applyJump, if_neg (by simp [h])]
  · intro p yaw t h1 h2
    rw [applyDash, if_pos ⟨h1, h2⟩]
  · intro caster players t h
    rw [fireArcaneRay, if_pos (by rw [arcaneCanFire]; exact fun hc => absurd h (not_lt.mpr hc))]

/-- The dash sentinel state: a player whose dash was recorded at tick 0. -/
noncomputable def dashSentinelPlayer : PlayerState ℝ :=
  { id := "D", name := "Dana", position := ⟨0, 9/10, 0⟩, velocity := ⟨0, 0, 0⟩,
    yaw := 0, pitch := 0, health := 100, maxHealth := 100, isAlive := true,
    isGrounded := true,
    abilities := { createDefaultAbilityState with dash := ⟨false, 3000, 0⟩ },
    lastProcessedInput := 0, lastDamageTick := 0 }

/-- **C8 counterexample.** A player whose dash was last used at tick 0 is
still on cooldown at tick 1 (1 tick of 180 elapsed), yet `applyDash`
returns `true` and rewrites the velocity and the dash cooldown record —
the `lastUsed !== 0` sentinel bypasses the cooldown gate. -/
theorem applyDash_sentinel_cex :
    (1 : ℤ) - dashSentinelPlayer.abilities.dash.lastUsed <
      cooldownMsToTicks DASH_COOLDOWN_MS ∧
    (applyDash dashSentinelPlayer 0 1).2 = true ∧
    (applyDash dashSentinelPlayer 0 1).1.velocity.z = -(160/3) ∧
    (applyDash dashSentinelPlayer 0 1).1.abilities.dash.lastUsed = 1 := by
  refine ⟨?_, ?_, ?_, ?_⟩ <;>
    norm_num [applyDash, dashSentinelPlayer, createDefaultAbilityState,
      dashCooldownTicks_eq, DASH_DISTANCE, DASH_DURATION_MS,
      Real.sqrt_zero, Real.sin_zero, Real.cos_zero]

/-- An airborne player (for the jump no-op). -/
noncomputable def airborneDemoPlayer : PlayerState ℝ :=
  { rayVictimB with
    id := "J"
    isGrounded := false
    velocity := ⟨0, 5, 0⟩ }

/-- A player whose dash was used at tick 5 (on cooldown at tick 6). -/
noncomputable def cooledDashDemoPlayer : PlayerState ℝ :=
  { rayVictimB with
    id := "E"
    abilities := { createDefaultAbilityState with dash := ⟨false, 3000, 5⟩ } }

/-- A caster whose ray was used at tick 5 (on cooldown at tick 6). -/
noncomputable def cooledRayDemoPlayer : PlayerState ℝ :=
  { rayVictimB with
    id := "R"
    abilities := { createDefaultAbilityState with arcaneRay := ⟨false, 6000, 5⟩ } }

/-- Witness for C8: the three no-ops at concrete on-cooldown/airborne
states at tick 6. -/
theorem stale_actions_are_noops_witness :
    (airborneDemoPlayer.isGrounded = false ∧
      applyJump airborneDemoPlayer = (airborneDemoPlayer, false)) ∧
    ((6 : ℤ) - cooledDashDemoPlayer.abilities.dash.lastUsed <
        cooldownMsToTicks DASH_COOLDOWN_MS ∧
      cooledDashDemoPlayer.abilities.dash.lastUsed ≠ 0 ∧
      applyDash cooledDashDemoPlayer 0 6 = (cooledDashDemoPlayer, false)) ∧
    ((6 : ℤ) - cooledRayDemoPlayer.abilities.arcaneRay.lastUsed <
        cooldownMsToTicks ARCANE_RAY_COOLDOWN_MS ∧
      fireArcaneRay cooledRayDemoPlayer [] 6 = (cooledRayDemoPlayer, none)) := by
  have hd : (6 : ℤ) - cooledDashDemoPlayer.abilities.dash.lastUsed <
      cooldownMsToTicks DASH_COOLDOWN_MS := by
    rw [dashCooldownTicks_eq]
    norm_num [cooledDashDemoPlayer, rayVictimB]
  have hd0 : cooledDashDemoPlayer.abilities.dash.lastUsed ≠ 0 := by
    norm_num [cooledDashDemoPlayer, rayVictimB]
  have hr : (6 : ℤ) - cooledRayDemoPlayer.abilities.arcaneRay.lastUsed <
      cooldownMsToTicks ARCANE_RAY_COOLDOWN_MS := by
    rw [arcaneCooldownTicks_eq]
    norm_num [cooledRayDemoPlayer, rayVictimB]
  have hj : airborneDemoPlayer.isGrounded = false := by
    norm_num [airborneDemoPlayer, rayVictimB]
  exact ⟨⟨hj, stale_actions_are_noops.1 airborneDemoPlayer hj⟩,
    ⟨hd, hd0, stale_actions_are_noops.2.1 cooledDashDemoPlayer 0 6 hd hd0⟩,
    ⟨hr, stale_actions_are_noops.2.2 cooledRayDemoPlayer [] 6 hr⟩⟩

/-! ## ArenaCollisionSystem -/

/-- `PHYSICS.GROUND_LEVEL = 0`. -/
noncomputable def GROUND_LEVEL : ℝ := 0

/-- `circleOverlapsAABBXZ` from `collisionMath.ts` (real carrier). -/
noncomputable def circleOverlapsAABBXZ (x z radius : ℝ) (aabb : CollisionAABB ℝ) : Prop :=
  let closestX := max aabb.min.x (min x aabb.max.x)
  let closestZ := max aabb.min.z (min z aabb.max.z)
  (x - closestX) * (x - closestX) + (z - closestZ) * (z - closestZ) ≤ radius * radius

noncomputable instance (x z radius : ℝ) (aabb : CollisionAABB ℝ) :
    Decidable (circleOverlapsAABBXZ x z radius aabb) := by
  unfold circleOverlapsAABBXZ; infer_instance

/-- The `{x, z, collided}` record returned by the push helpers of
`collisionMath.ts`. -/
structure PushResult where
  x : ℝ
  z : ℝ
  collided : Bool

/-- `resolveWallCollision` from `collisionMath.ts`: blocks only when the
player's vertical extent intersects the wall's; pushes out to the closest
point plus the player radius. -/
noncomputable def resolveWallCollision (x z feetY playerHeight radius : ℝ)
    (wall : CollisionAABB ℝ) : PushResult :=
  let headY := feetY + playerHeight
  if headY ≤ wall.min.y ∨ wall.max.y ≤ feetY then ⟨x, z, false⟩
  else
    let closestX := max wall.min.x (min x wall.max.x)
    let closestZ := max wall.min.z (min z wall.max.z)
    let dx := x - closestX
    let dz := z - closestZ
    let distSquared := dx * dx + dz * dz
    if distSquared < radius * radius ∧ 1/10000 < distSquared then
      let dist := Real.sqrt distSquared
      ⟨closestX + dx / dist * radius, closestZ + dz / dist * radius, true⟩
    else ⟨x, z, false⟩

/-- `resolveCylinderCollision` from `collisionMath.ts`. -/
noncomputable def resolveCylinderCollision (x z radius : ℝ)
    (cylinder : CollisionCylinder ℝ) : PushResult :=
  let dx := x - cylinder.center.x
  let dz := z - cylinder.center.z
  let distSquared := dx * dx + dz * dz
  let minDist := radius + cylinder.radius
  if distSquared < minDist * minDist ∧ 1/10000 < distSquared then
    let dist := Real.sqrt distSquared
    ⟨cylinder.center.x + dx / dist * minDist, cylinder.center.z + dz / dist * minDist, true⟩
  else ⟨x, z, false⟩

/-- Step 1 of `ArenaCollisionSystem.resolveCollisions`: push out of one
wall. -/
noncomputable def wallPushStep (feetY : ℝ) (xz : ℝ × ℝ) (wall : CollisionAABB ℝ) :
    ℝ × ℝ :=
  let result := resolveWallCollision xz.1 xz.2 feetY PLAYER_HEIGHT PLAYER_RADIUS wall
  if result.collided then (result.x, result.z) else xz

/-- Step 2 of `resolveCollisions`: push out of one pillar (only while
within the cylinder's height). -/
noncomputable def cylinderPushStep (feetY : ℝ) (xz : ℝ × ℝ)
    (cylinder : CollisionCylinder ℝ) : ℝ × ℝ :=
  if feetY < cylinder.height then
    let result := resolveCylinderCollision xz.1 xz.2 PLAYER_RADIUS cylinder
    if result.collided then (result.x, result.z) else xz
  else xz

/-- Step 3 of `resolveCollisions`: the highest platform or pillar-top
surface the player's footprint overlaps whose landing window contains the
feet (fell slightly through, or at/near the surface). -/
noncomputable def highestLandingSurface (x z feetY : ℝ) : Option ℝ :=
  let afterPlatforms := (arenaPlatforms ℝ).foldl (fun best platform =>
    if circleOverlapsAABBXZ x z PLAYER_RADIUS platform then
      let surfaceY := platform.max.y
      if (feetY < surfaceY ∧ platform.min.y < feetY) ∨
          (surfaceY ≤ feetY ∧ feetY ≤ surfaceY + 1/2) then
        match best with
        | none => some surfaceY
        | some b => if b < surfaceY then some surfaceY else best
      else best
    else best) none
  (arenaCylinders ℝ).foldl (fun best cylinder =>
    let dx := x - cylinder.center.x
    let dz := z - cylinder.center.z
    let landingRadius := cylinder.radius + PLAYER_RADIUS
    if dx * dx + dz * dz ≤ landingRadius * landingRadius then
      if cylinder.height - 1/2 ≤ feetY ∧ feetY ≤ cylinder.height + 3/10 then
        match best with
        | none => some cylinder.height
        | some b => if b < cylinder.height then some cylinder.height else best
      else best
    else best) afterPlatforms

/-- The `{position, velocity, isGrounded}` record of `CollisionResult`
(`packages/shared/src/types/collision.ts`). -/
structure CollisionResult where
  position : Vec3 ℝ
  velocity : Vec3 ℝ
  isGrounded : Bool

/-- `ArenaCollisionSystem.resolveCollisions`: wall blocking, pillar
blocking, platform/pillar-top landing (highest valid surface, falling
only), ceiling check (rising only), and the ground fallback at `Y = 0`. -/
noncomputable def resolveCollisions (position velocity : Vec3 ℝ) : CollisionResult :=
  let feetY := position.y - PLAYER_HEIGHT / 2
  let xz1 := (arenaWalls ℝ).foldl (wallPushStep feetY) (position.x, position.z)
  let xz2 := (arenaCylinders ℝ).foldl (cylinderPushStep feetY) xz1
  let landing : Option ℝ :=
    if velocity.y ≤ 0 then highestLandingSurface xz2.1 xz2.2 feetY else none
  let y3 : ℝ := match landing with
    | some s => s + PLAYER_HEIGHT / 2
    | none => position.y
  let vy3 : ℝ := match landing with
    | some _ => 0
    | none => velocity.y
  let grounded3 : Bool := match landing with
    | some _ => true
    | none => false
  let vy4 : ℝ :=
    if 0 < vy3 ∧ (∃ p ∈ arenaPlatforms ℝ,
        circleOverlapsAABBXZ xz2.1 xz2.2 PLAYER_RADIUS p ∧
        p.min.y < feetY + PLAYER_HEIGHT ∧ feetY < p.min.y) then 0
    else vy3
  let currentFeetY := y3 - PLAYER_HEIGHT / 2
  if grounded3 = false ∧ currentFeetY ≤ GROUND_LEVEL then
    ⟨⟨xz2.1, GROUND_LEVEL + PLAYER_HEIGHT / 2, xz2.2⟩,
      ⟨velocity.x, 0, velocity.z⟩, true⟩
  else
    ⟨⟨xz2.1, y3, xz2.2⟩, ⟨velocity.x, vy4, velocity.z⟩, grounded3⟩

/-- A wall fold over a position no wall pushes leaves it unchanged. -/
theorem wall_fold_id (l : List (CollisionAABB ℝ)) (x z feetY : ℝ)
    (h : ∀ w ∈ l,
      (resolveWallCollision x z feetY PLAYER_HEIGHT PLAYER_RADIUS w).collided = false) :
    l.foldl (wallPushStep feetY) (x, z) = (x, z) := by
  induction l with
  | nil => rfl
  | cons w rest ih =>
    rw [List.foldl_cons]
    have hw := h w (List.mem_cons_self _ _)
    have hstep : wallPushStep feetY (x, z) w = (x, z) := by
      rw [wallPushStep]
      dsimp only
      rw [hw]
      simp
    rw [hstep]
    exact ih (fun w' hw' => h w' (List.mem_cons_of_mem _ hw'))

/-- A cylinder fold over a position no pillar pushes leaves it unchanged. -/
theorem cylinder_fold_id (l : List (CollisionCylinder ℝ)) (x z feetY : ℝ)
    (h : ∀ c ∈ l, feetY < c.height →
      (resolveCylinderCollision x z PLAYER_RADIUS c).collided = false) :
    l.foldl (cylinderPushStep feetY) (x, z) = (x, z) := by
  induction l with
  | nil => rfl
  | cons c rest ih =>
    rw [List.foldl_cons]
    have hstep : cylinderPushStep feetY (x, z) c = (x, z) := by
      rw [cylinderPushStep]
      by_cases hh : feetY < c.height
      · rw [if_pos hh]
        dsimp only
        rw [h c (List.mem_cons_self _ _) hh]
        simp
      · rw [if_neg hh]
    rw [hstep]
    exact ih (fun c' hc' hh => h c' (List.mem_cons_of_mem _ hc') hh)

theorem GROUND_LEVEL_eq : GROUND_LEVEL = 0 := rfl

/-- **C9.** Landing resolution is idempotent: for every grounded, stationary
player (zero vertical velocity, feet resting either on a landing surface
reported by `highestLandingSurface` or on the ground plane, not pushed by any
arena wall or pillar), `ArenaCollisionSystem.resolveCollisions` returns the
identical position (same height), the identical velocity (zero vertical
velocity) and `isGrounded = true`, and applying it a second time to its own
output gives the same result as applying it once. -/
theorem landing_idempotent (position velocity : Vec3 ℝ)
    (hvy : velocity.y = 0)
    (hw : ∀ w ∈ arenaWalls ℝ,
      (resolveWallCollision position.x position.z (position.y - PLAYER_HEIGHT / 2)
        PLAYER_HEIGHT PLAYER_RADIUS w).collided = false)
    (hc : ∀ c ∈ arenaCylinders ℝ, position.y - PLAYER_HEIGHT / 2 < c.height →
      (resolveCylinderCollision position.x position.z PLAYER_RADIUS c).collided = false)
    (hl : highestLandingSurface position.x position.z (position.y - PLAYER_HEIGHT / 2) =
        some (position.y - PLAYER_HEIGHT / 2) ∨
      (highestLandingSurface position.x position.z (position.y - PLAYER_HEIGHT / 2) = none ∧
        position.y - PLAYER_HEIGHT / 2 = 0)) :
    resolveCollisions position velocity = ⟨position, velocity, true⟩ ∧
    resolveCollisions (resolveCollisions position velocity).position
      (resolveCollisions position velocity).velocity = resolveCollisions position velocity := by
  have h1 : resolveCollisions position velocity = ⟨position, velocity, true⟩ := by
    rw [resolveCollisions]
    rw [wall_fold_id _ _ _ _ hw, cylinder_fold_id _ _ _ _ hc]
    rw [if_pos (le_of_eq hvy)]
    rcases hl with hsome | ⟨hnone, hfeet⟩
    · simp only [hsome, lt_self_iff_false, false_and, if_false, Bool.true_eq_false,
        and_false]
      have hy : position.y - PLAYER_HEIGHT / 2 + PLAYER_HEIGHT / 2 = position.y := by ring
      rw [hy, ← hvy]
    · simp only [hnone, hvy, lt_self_iff_false, false_and, if_false]
      rw [if_pos ⟨trivial, by rw [GROUND_LEVEL_eq]; linarith⟩]
      have hy : GROUND_LEVEL + PLAYER_HEIGHT / 2 = position.y := by
        rw [GROUND_LEVEL_eq]; linarith
      rw [hy, ← hvy]
  exact ⟨h1, by rw [h1]; exact h1⟩

/-- A concrete resting configuration: a player standing on the open ground at
`(0, 0.9, 10)`, away from every wall, pillar and platform. -/
noncomputable def restingPos : Vec3 ℝ := ⟨0, 9/10, 10⟩

/-- Zero velocity for the resting witness. -/
noncomputable def restingVel : Vec3 ℝ := ⟨0, 0, 0⟩

set_option maxHeartbeats 2000000 in
/-- Witness for C9 at the concrete ground-resting configuration. -/
theorem landing_idempotent_witness :
    restingVel.y = 0 ∧
    (resolveCollisions restingPos restingVel = ⟨restingPos, restingVel, true⟩ ∧
      resolveCollisions (resolveCollisions restingPos restingVel).position
        (resolveCollisions restingPos restingVel).velocity =
        resolveCollisions restingPos restingVel) := by
  have hw : ∀ w ∈ arenaWalls ℝ,
      (resolveWallCollision restingPos.x restingPos.z (restingPos.y - PLAYER_HEIGHT / 2)
        PLAYER_HEIGHT PLAYER_RADIUS w).collided = false := by
    intro w hw
    simp only [arenaWalls, List.mem_cons, List.not_mem_nil, or_false] at hw
    rcases hw with rfl | rfl | rfl | rfl | rfl | rfl | rfl | rfl <;>
      norm_num [resolveWallCollision, createAABB, restingPos, PLAYER_HEIGHT, PLAYER_RADIUS,
        min_def, max_def]
  have hc : ∀ c ∈ arenaCylinders ℝ, restingPos.y - PLAYER_HEIGHT / 2 < c.height →
      (resolveCylinderCollision restingPos.x restingPos.z PLAYER_RADIUS c).collided = false := by
    intro c hcm
    simp only [arenaCylinders, List.mem_cons, List.not_mem_nil, or_false] at hcm
    rcases hcm with rfl | rfl | rfl | rfl <;>
      (intro _ ;
        norm_num [resolveCylinderCollision, createCylinder, restingPos, PLAYER_RADIUS])
  have hl : highestLandingSurface restingPos.x restingPos.z (restingPos.y - PLAYER_HEIGHT / 2) = none ∧
      restingPos.y - PLAYER_HEIGHT / 2 = 0 := by
    constructor
    · norm_num [highestLandingSurface, arenaPlatforms, arenaCylinders, createAABB,
        createCylinder, circleOverlapsAABBXZ, restingPos, PLAYER_RADIUS, PLAYER_HEIGHT,
        min_def, max_def]
    · norm_num [restingPos, PLAYER_HEIGHT]
  exact ⟨rfl, landing_idempotent restingPos restingVel rfl hw hc (Or.inr hl)⟩

/-- Horizontal centre distance between two players, from
`CollisionSystem.resolvePlayerPairCollision`:
`Math.sqrt(dx * dx + dz * dz)` with `dx = b.x - a.x`, `dz = b.z - a.z`. -/
noncomputable def pairDist (a b : PlayerState ℝ) : ℝ :=
  let dx := b.position.x - a.position.x
  let dz := b.position.z - a.position.z
  Real.sqrt (dx * dx + dz * dz)

/-- `CollisionSystem.resolvePlayerPairCollision` from `PhysicsSystem.ts`:
push two overlapping players apart along the horizontal line joining them,
half the overlap each, guarded by `dist < minDist && dist > 0.001`. -/
noncomputable def resolvePlayerPairCollision (a b : PlayerState ℝ) :
    PlayerState ℝ × PlayerState ℝ :=
  let dx := b.position.x - a.position.x
  let dz := b.position.z - a.position.z
  let dist := pairDist a b
  let minDist := PLAYER_RADIUS * 2
  if dist < minDist ∧ 1 / 1000 < dist then
    let overlap := (minDist - dist) / 2
    let nx := dx / dist
    let nz := dz / dist
    ({ a with position := ⟨a.position.x - nx * overlap, a.position.y,
        a.position.z - nz * overlap⟩ },
     { b with position := ⟨b.position.x + nx * overlap, b.position.y,
        b.position.z + nz * overlap⟩ })
  else
    (a, b)

/-- One pass of the inner `j` loop of `resolvePlayerCollisions`: resolve the
fixed player `a` against each later player in order, threading the updated
`a` through (the JS code mutates the array entries in place). -/
noncomputable def pairLoopInner : PlayerState ℝ → List (PlayerState ℝ) →
    PlayerState ℝ × List (PlayerState ℝ)
  | a, [] => (a, [])
  | a, b :: bs =>
    let ab := resolvePlayerPairCollision a b
    let rest := pairLoopInner ab.1 bs
    (rest.1, ab.2 :: rest.2)

theorem pairLoopInner_length (a : PlayerState ℝ) (l : List (PlayerState ℝ)) :
    (pairLoopInner a l).2.length = l.length := by
  induction l generalizing a with
  | nil => rfl
  | cons b bs ih => simp [pairLoopInner, ih]

/-- The outer `i` loop of `resolvePlayerCollisions`: each player is resolved
against every later player, with updates from earlier iterations visible to
later ones (in-place mutation of the array entries). -/
noncomputable def pairLoopOuter : List (PlayerState ℝ) → List (PlayerState ℝ)
  | [] => []
  | a :: rest => (pairLoopInner a rest).1 :: pairLoopOuter (pairLoopInner a rest).2
termination_by l => l.length
decreasing_by rw [pairLoopInner_length]; exact Nat.lt_succ_self _

/-- `CollisionSystem.resolvePlayerCollisions` from `PhysicsSystem.ts`:
filter the player map's values to the alive players, then run the nested
index loops; returns the updated alive array (the JS method mutates the
shared player objects in place). -/
noncomputable def resolvePlayerCollisions (players : Players ℝ) :
    List (PlayerState ℝ) :=
  pairLoopOuter ((players.map Prod.snd).filter (fun p => p.isAlive))

/-- **C10.** Player-pair separation is division-safe but incomplete at zero
distance: a pair of alive players at horizontal distance at most `0.001`
(e.g. exactly coincident spawn positions) is left completely unchanged, both
by the pair resolution and by `resolvePlayerCollisions` on the two-player
map; and every pair the system processes is either left unchanged or has
strictly positive (indeed `> 0.001`) distance, so the divisor of the push
branch is never zero (the guard `dist > 0.001` is what rules out `NaN`
positions in the JS code). -/
theorem resolvePlayerCollisions_zero_distance_safe
    (ia ib : String) (a b : PlayerState ℝ)
    (ha : a.isAlive = true) (hb : b.isAlive = true)
    (hnear : pairDist a b ≤ 1 / 1000) :
    resolvePlayerPairCollision a b = (a, b) ∧
    resolvePlayerCollisions [(ia, a), (ib, b)] = [a, b] ∧
    ∀ c d : PlayerState ℝ,
      resolvePlayerPairCollision c d = (c, d) ∨ 1 / 1000 < pairDist c d := by
  have hpair : resolvePlayerPairCollision a b = (a, b) := by
    rw [resolvePlayerPairCollision, if_neg]
    intro hcon
    exact absurd hcon.2 (not_lt.mpr hnear)
  refine ⟨hpair, ?_, ?_⟩
  · rw [resolvePlayerCollisions]
    have hf : ((([(ia, a), (ib, b)] : Players ℝ).map Prod.snd).filter
        (fun p => p.isAlive)) = [a, b] := by
      simp [ha, hb]
    rw [hf]
    simp only [pairLoopOuter, pairLoopInner, hpair]
  · intro c d
    by_cases hg : pairDist c d < PLAYER_RADIUS * 2 ∧ 1 / 1000 < pairDist c d
    · exact Or.inr hg.2
    · left
      rw [resolvePlayerPairCollision, if_neg hg]

/-- A player at the default spawn position, over `ℝ`. -/
noncomputable def pairPlayerA : PlayerState ℝ :=
  { id := "PA"
    name := "PA"
    position := ⟨0, 1, 0⟩
    velocity := ⟨0, 0, 0⟩
    yaw := 0
    pitch := 0
    health := 100
    maxHealth := 100
    isAlive := true
    isGrounded := true
    abilities := createDefaultAbilityState
    lastProcessedInput := 0
    lastDamageTick := 0 }

/-- A second alive player at the identical spawn position. -/
noncomputable def pairPlayerB : PlayerState ℝ :=
  { pairPlayerA with id := "PB", name := "PB" }

/-- Witness for C10: two alive players at exactly coincident spawn
positions are left unchanged, and the division-safety disjunction holds. -/
theorem resolvePlayerCollisions_zero_distance_safe_witness :
    (pairPlayerA.isAlive = true ∧ pairPlayerB.isAlive = true ∧
      pairDist pairPlayerA pairPlayerB ≤ 1 / 1000) ∧
    (resolvePlayerPairCollision pairPlayerA pairPlayerB = (pairPlayerA, pairPlayerB) ∧
      resolvePlayerCollisions [("PA", pairPlayerA), ("PB", pairPlayerB)] =
        [pairPlayerA, pairPlayerB] ∧
      ∀ c d : PlayerState ℝ,
        resolvePlayerPairCollision c d = (c, d) ∨ 1 / 1000 < pairDist c d) := by
  have h1 : pairPlayerA.isAlive = true := rfl
  have h2 : pairPlayerB.isAlive = true := rfl
  have h3 : pairDist pairPlayerA pairPlayerB ≤ 1 / 1000 := by
    norm_num [pairDist, pairPlayerA, pairPlayerB, Real.sqrt_zero]
  exact ⟨⟨h1, h2, h3⟩,
    resolvePlayerCollisions_zero_distance_safe "PA" "PB" pairPlayerA pairPlayerB h1 h2 h3⟩
